import Mathlib

/-!
Verification of the ArcInfo ASCII grid codec (`icepack/grid/arcinfo.py`)
against its natural-language specification.

The Python code is shallowly embedded: strings become `List Char` (so that
string manipulation is inductively analysable), an open text stream becomes
the list of its remaining lines, Python floats are idealised as rationals
(the spec's round-trip property is stated "up to floating-point
text-formatting precision", so values are taken from the exactly
representable ones), and code that can raise returns `Except`/`Option`.
-/

set_option maxHeartbeats 1000000

/-- Strings are embedded as lists of characters. -/
abbrev Str := List Char

/-- Whitespace characters recognised by Python's `str.split()` with no
arguments (space, tab, newline, carriage return, vertical tab, form feed). -/
def isWS (c : Char) : Bool :=
  c = ' ' || c = '\t' || c = '\n' || c = '\r' || c = Char.ofNat 11 || c = Char.ofNat 12

/-- Worker for `pySplit`: the second argument is the current token,
accumulated in reverse. -/
def pySplitAux : Str → Str → List Str
  | [], [] => []
  | [], tok => [tok.reverse]
  | c :: cs, tok =>
    if isWS c then
      match tok with
      | [] => pySplitAux cs []
      | _ => tok.reverse :: pySplitAux cs []
    else
      pySplitAux cs (c :: tok)

/-- Model of Python's `str.split()` with no arguments: split on runs of
whitespace, discarding leading and trailing whitespace. -/
def pySplit (s : Str) : List Str := pySplitAux s []

/-- A "token": a nonempty string containing no whitespace.  `pySplit`
recovers exactly the tokens of a whitespace-separated line. -/
def isTok (s : Str) : Bool := !s.isEmpty && s.all (fun c => !isWS c)

/-- The decimal digit character for `d` (meaningful for `d < 10`). -/
def digitChar (d : Nat) : Char := Char.ofNat (48 + d)

/-- The numeric value of a decimal digit character (for characters that
satisfy `Char.isDigit`). -/
def digitVal (c : Char) : Nat := c.toNat - 48

/-- Worker for `natDigitsRev`, structurally recursive on a fuel argument
(so that the kernel can evaluate it); `fuel ≥ n` always suffices. -/
def natDigitsRevAux : Nat → Nat → List Char
  | _, 0 => []
  | 0, _ + 1 => []
  | fuel + 1, n + 1 => digitChar ((n + 1) % 10) :: natDigitsRevAux fuel ((n + 1) / 10)

/-- The decimal digits of a positive number, least significant first. -/
def natDigitsRev (n : Nat) : List Char := natDigitsRevAux n n

/-- Model of Python's `str()`/`"{0}".format()` on a nonnegative integer:
standard decimal notation. -/
def natRepr (n : Nat) : Str :=
  match n with
  | 0 => ['0']
  | _ => (natDigitsRev n).reverse

/-- Fold a list of digit characters into a number, failing on a
non-digit character. -/
def parseDigitsAux : List Char → Nat → Option Nat
  | [], acc => some acc
  | c :: cs, acc =>
    if c.isDigit then parseDigitsAux cs (acc * 10 + digitVal c) else none

/-- Parse a nonempty all-digit string into a number. -/
def parseNatDigits : List Char → Option Nat
  | [] => none
  | cs => parseDigitsAux cs 0

/-- Model of Python's `int()` on a string: an optional sign followed by
decimal digits.  (Surrounding whitespace and underscore separators, which
Python also tolerates, never occur in the inputs considered here and are
not modelled.) -/
def pyInt (s : Str) : Option Int :=
  match s with
  | [] => none
  | c :: cs =>
    if c = '-' then (parseNatDigits cs).map (fun n => -(n : Int))
    else if c = '+' then (parseNatDigits cs).map (fun n => (n : Int))
    else (parseNatDigits (c :: cs)).map (fun n => (n : Int))

/-- The numeric value of an all-digit string (total; meaningful when all
characters are digits). -/
def digitsVal (cs : List Char) : Nat :=
  cs.foldl (fun a c => a * 10 + digitVal c) 0

/-- Parse the unsigned part of a Python float literal: decimal digits with
an optional fractional part (`123`, `123.`, `123.45`, `.45`), at least one
digit in total.  Exponent notation and `inf`/`nan`, which Python's `float()`
also accepts, never occur in the inputs considered here and are not
modelled. -/
def parseUnsignedFloat (cs : Str) : Option ℚ :=
  let ip := cs.takeWhile (fun c => c ≠ '.')
  let rest := cs.dropWhile (fun c => c ≠ '.')
  match rest with
  | [] =>
    if ip ≠ [] ∧ ip.all Char.isDigit then some (mkRat (digitsVal ip) 1) else none
  | _ :: fp =>
    if (ip ≠ [] ∨ fp ≠ []) ∧ ip.all Char.isDigit ∧ fp.all Char.isDigit then
      some (mkRat (digitsVal ip * 10 ^ fp.length + digitsVal fp) (10 ^ fp.length))
    else none

/-- Model of Python's `float()` on a string: optional sign, then an
unsigned float literal. -/
def pyFloat (s : Str) : Option ℚ :=
  match s with
  | [] => none
  | c :: cs =>
    if c = '-' then (parseUnsignedFloat cs).map Neg.neg
    else if c = '+' then parseUnsignedFloat cs
    else parseUnsignedFloat (c :: cs)

/-- The smallest exponent `k ≤ 40` such that `q * 10 ^ k` is an integer
(i.e. the denominator of `q` divides `10 ^ k`), if one exists (it does for
every value of interest: Python floats printed in positional notation have
short finite decimal expansions). -/
def decExp (q : ℚ) : Option Nat :=
  (List.range 41).find? (fun k => 10 ^ k % q.den = 0)

/-- Render `n` in decimal padded with leading zeros to at least `w`
digits. -/
def natReprPad (n w : Nat) : Str :=
  let s := natRepr n
  List.replicate (w - s.length) '0' ++ s

/-- Model of Python's `str()` on a float, idealised on rationals: decimal
positional notation with at least one fractional digit (Python always
prints a float with a decimal point, e.g. `3.0`).  Values with no short
finite decimal expansion (which cannot arise from parsed float input) are
rendered arbitrarily. -/
def formatRat (q : ℚ) : Str :=
  match decExp q with
  | none => ['0']
  | some k =>
    let k := max k 1
    let n : Int := q.num * ((10 ^ k) / q.den : Nat)
    let digits := natReprPad n.natAbs (k + 1)
    let sign : Str := if n < 0 then ['-'] else []
    sign ++ digits.take (digits.length - k) ++ ['.'] ++ digits.drop (digits.length - k)

/-- Modelled from the spec: the `GridData` class of `icepack.grid`, whose
module is not under `src/` (only its use in `arcinfo.py` is).  Spec §3:
`origin` is the metric lower-left corner, `cell_size` (`delta`) the uniform
spacing, `values` a 2-D float array stored north-to-south (row 0 is the
northernmost row), and `missing_mask` a boolean array of the same shape.
The masked-array representation of the source is modelled as the explicit
parallel boolean mask that spec §9 describes. -/
structure GridData where
  origin : ℚ × ℚ
  delta : ℚ
  data : List (List ℚ)
  mask : List (List Bool)
deriving DecidableEq, Repr

/-- Modelled from the spec: `GridData.shape` (spec §3), the pair
(num_rows, num_columns). -/
def GridData.shape (g : GridData) : Nat × Nat :=
  (g.data.length, (g.data.headD []).length)

/-- Modelled from the spec: `grid[i, j]` (spec §4.1) returns the numeric
value at storage row `i`, column `j`, regardless of mask state. -/
def GridData.val (g : GridData) (i j : Nat) : ℚ :=
  (g.data.getD i []).getD j 0

/-- Modelled from the spec: `is_missing(i, j)` (spec §4.1) / the test
`q.data[i, j] is ma.masked` of the source. -/
def GridData.isMasked (g : GridData) (i j : Nat) : Bool :=
  (g.mask.getD i []).getD j false

/-- Modelled from the spec: the GridData constructor (spec §4.1): origin,
cell size, a values array, and a missing-data sentinel; every cell
numerically equal to the sentinel is marked masked at construction time. -/
def GridData.make (origin : ℚ × ℚ) (delta : ℚ) (values : List (List ℚ))
    (missing : ℚ) : GridData :=
  ⟨origin, delta, values, values.map (fun r => r.map (fun v => decide (v = missing)))⟩

/-- Well-formedness (spec §3 invariants): the mask has the same shape as
the values, and the rows are rectangular. -/
def GridData.Wf (g : GridData) : Prop :=
  g.mask.length = g.data.length ∧
  (∀ r ∈ g.data, r.length = g.shape.2) ∧
  (∀ r ∈ g.mask, r.length = g.shape.2)

instance (g : GridData) : Decidable g.Wf := by
  unfold GridData.Wf
  infer_instance

namespace arcinfo

/-- Pad a header keyword with spaces to the stable column width 16 used by
every header line the source emits. -/
def padTo16 (kw : Str) : Str := kw ++ List.replicate (16 - kw.length) ' '

/-- The six header lines emitted by `write`, in source order:
`ncols`, `nrows`, `xllcorner`, `yllcorner`, `cellsize`, `NODATA_value`. -/
def headerLines (nx ny : Nat) (xo yo dx m : ℚ) : List Str :=
  [padTo16 "ncols".toList ++ natRepr nx,
   padTo16 "nrows".toList ++ natRepr ny,
   padTo16 "xllcorner".toList ++ formatRat xo,
   padTo16 "yllcorner".toList ++ formatRat yo,
   padTo16 "cellsize".toList ++ formatRat dx,
   padTo16 "NODATA_value".toList ++ formatRat m]

/-- One raster body line: the inner `for j in range(nx)` loop of `write`.
Each cell is rendered as `"{0} ".format(value)`, where `value` is the
missing sentinel if the cell is masked and the stored value otherwise. -/
def rowLine (g : GridData) (m : ℚ) (nx i : Nat) : Str :=
  ((List.range nx).map
    (fun j => (if g.isMasked i j then formatRat m else formatRat (g.val i j)) ++ [' '])).flatten

/-- The raster body lines: the outer `for i in range(ny - 1, -1, -1)` loop
of `write`, emitting storage rows from row `ny - 1` down to row `0`. -/
def writeRows (g : GridData) (m : ℚ) (nx : Nat) : Nat → List Str
  | 0 => []
  | i + 1 => rowLine g m nx i :: writeRows g m nx i

/-- The lines `write(_, q, missing)` writes to its output stream
(`src/icepack/grid/arcinfo.py`, `write`): six header lines followed by the
raster body.  The stream itself is modelled as the list of lines written;
each line's terminating newline is implicit. -/
def write (g : GridData) (m : ℚ) : List Str :=
  headerLines g.shape.2 g.shape.1 g.origin.1 g.origin.2 g.delta m ++
    writeRows g m g.shape.2 g.shape.1

/-- Model of `file.readline()` on a stream of remaining lines: at end of
stream Python returns the empty string. -/
def readline : List Str → Str × List Str
  | [] => ([], [])
  | l :: ls => (l, ls)

/-- The failure modes of `read` (each a `ValueError`/`IndexError` raised
by the source). -/
inductive ReadErr where
  /-- `readline().split()[1]` on a line with fewer than two tokens. -/
  | headerIndexError
  /-- `int()`/`float()` on a header token that does not parse. -/
  | headerValueError
  /-- `np.zeros((ny, nx))` with a negative dimension. -/
  | negativeDims
  /-- `float()` on a data-row token that does not parse. -/
  | rowValueError
  /-- `data[i, :] = row` where the row's length can not be broadcast. -/
  | rowBroadcastError
deriving DecidableEq, Repr

/-- The local helper `rd()` of `read`: read one line, split it on
whitespace, take the second token (`None` models the `IndexError` when
there is no second token; the line is consumed either way). -/
def rd (st : List Str) : Option Str × List Str :=
  let (l, st') := readline st
  ((pySplit l)[1]?, st')

/-- `int(rd())`: the header-token reader followed by Python `int()`. -/
def rdInt (st : List Str) : Except ReadErr Int × List Str :=
  match rd st with
  | (none, st') => (.error .headerIndexError, st')
  | (some t, st') =>
    match pyInt t with
    | none => (.error .headerValueError, st')
    | some n => (.ok n, st')

/-- `float(rd())`: the header-token reader followed by Python `float()`. -/
def rdFloat (st : List Str) : Except ReadErr ℚ × List Str :=
  match rd st with
  | (none, st') => (.error .headerIndexError, st')
  | (some t, st') =>
    match pyFloat t with
    | none => (.error .headerValueError, st')
    | some q => (.ok q, st')

/-- The header-reading prefix of `read`: `nx`, `ny`, `xo`, `yo`, `dx`,
`missing`, in source order. -/
def readHeader (st : List Str) :
    Except ReadErr (Int × Int × ℚ × ℚ × ℚ × ℚ) × List Str :=
  match rdInt st with
  | (.error e, st1) => (.error e, st1)
  | (.ok nx, st1) =>
  match rdInt st1 with
  | (.error e, st2) => (.error e, st2)
  | (.ok ny, st2) =>
  match rdFloat st2 with
  | (.error e, st3) => (.error e, st3)
  | (.ok xo, st3) =>
  match rdFloat st3 with
  | (.error e, st4) => (.error e, st4)
  | (.ok yo, st4) =>
  match rdFloat st4 with
  | (.error e, st5) => (.error e, st5)
  | (.ok dx, st5) =>
  match rdFloat st5 with
  | (.error e, st6) => (.error e, st6)
  | (.ok missing, st6) => (.ok (nx, ny, xo, yo, dx, missing), st6)

/-- `[float(q) for q in input_file.readline().split()]` applied to one
line: every token must parse as a float. -/
def parseRowTokens (line : Str) : Except ReadErr (List ℚ) :=
  match (pySplit line).mapM pyFloat with
  | none => .error .rowValueError
  | some vs => .ok vs

/-- `data[i, :] = vs`: numpy assigns a row of exactly `nx` values
directly, broadcasts a single value across the row, and raises a
broadcast error for every other length. -/
def assignRow (nx : Nat) (vs : List ℚ) : Except ReadErr (List ℚ) :=
  if vs.length = nx then .ok vs
  else
    match vs with
    | [v] => .ok (List.replicate nx v)
    | _ => .error .rowBroadcastError

/-- The full effect of one data line: parse its tokens and assign them to
a row of width `nx`. -/
def rowRes (nx : Nat) (line : Str) : Except ReadErr (List ℚ) :=
  match parseRowTokens line with
  | .error e => .error e
  | .ok vs => assignRow nx vs

/-- The row-reading loop `for i in range(ny - 1, -1, -1)` of `read`: the
first line read is assigned to storage row `ny - 1`, the last to storage
row `0`; the returned rows are in storage order (row 0 first). -/
def readRows (nx : Nat) : Nat → List Str → Except ReadErr (List (List ℚ)) × List Str
  | 0, st => (.ok [], st)
  | k + 1, st =>
    let (line, st1) := readline st
    match rowRes nx line with
    | .error e => (.error e, st1)
    | .ok row =>
      match readRows nx k st1 with
      | (.error e, st2) => (.error e, st2)
      | (.ok rows, st2) => (.ok (rows ++ [row]), st2)

/-- `read` (`src/icepack/grid/arcinfo.py`): parse the six header lines,
read `ny` data lines bottom-row-first, and construct a GridData with the
parsed origin, cell size, raster and missing-data sentinel.  The result is
paired with the stream of lines not consumed (an error also returns the
stream position reached, as the underlying Python stream would have). -/
def read (st : List Str) : Except ReadErr GridData × List Str :=
  match readHeader st with
  | (.error e, st1) => (.error e, st1)
  | (.ok (nx, ny, xo, yo, dx, missing), st1) =>
    if nx < 0 ∨ ny < 0 then (.error .negativeDims, st1)
    else
      match readRows nx.toNat ny.toNat st1 with
      | (.error e, st2) => (.error e, st2)
      | (.ok rows, st2) => (.ok (GridData.make (xo, yo) dx rows missing), st2)

end arcinfo

/-- The accesses `write` performs on the grid `q` it is given, in source
order.  `write` only ever reads: `q.shape`, `q._origin[0]`, `q._origin[1]`,
`q._delta`, and per cell the mask test `q.data[i, j] is ma.masked` followed
(for unmasked cells) by the value read `q[i, j]`.  The mutating operations
are included in the type so that their absence from `write`'s trace is a
meaningful statement. -/
inductive GridOp where
  | readShape
  | readOrigin
  | readDelta
  | readItem (i j : Nat)
  | readMaskState (i j : Nat)
  | setItem (i j : Nat) (v : ℚ)
  | setMaskState (i j : Nat) (b : Bool)
deriving DecidableEq, Repr

/-- Whether a grid access is a pure read. -/
def GridOp.isRead : GridOp → Bool
  | .setItem _ _ _ => false
  | .setMaskState _ _ _ => false
  | _ => true

/-- The effect of one grid access on the grid: reads leave it unchanged,
the mutating operations update one cell. -/
def GridOp.apply (g : GridData) : GridOp → GridData
  | .setItem i j v => { g with data := g.data.set i ((g.data.getD i []).set j v) }
  | .setMaskState i j b => { g with mask := g.mask.set i ((g.mask.getD i []).set j b) }
  | _ => g

namespace arcinfo

/-- The grid accesses of one iteration of `write`'s inner column loop. -/
def rowOps (g : GridData) (nx i : Nat) : List GridOp :=
  ((List.range nx).map
    (fun j => GridOp.readMaskState i j ::
      if g.isMasked i j then [] else [GridOp.readItem i j])).flatten

/-- The grid accesses of `write`'s row loop, rows `ny - 1` down to `0`. -/
def rowsOps (g : GridData) (nx : Nat) : Nat → List GridOp
  | 0 => []
  | i + 1 => rowOps g nx i ++ rowsOps g nx i

/-- Every access `write` performs on its grid argument, in source order. -/
def writeOps (g : GridData) : List GridOp :=
  GridOp.readShape :: GridOp.readOrigin :: GridOp.readOrigin ::
    GridOp.readDelta :: rowsOps g g.shape.2 g.shape.1

/-- Events on the file stream that `write`/`read` own when they are handed
a path: the `open(...)` call, the data transfers, and (never emitted by
this code) `close()`. -/
inductive FileEv where
  | openFile
  | writeEv (line : Str)
  | readEv (line : Str)
  | closeFile
deriving DecidableEq, Repr

/-- The stream events of `write(path, q, missing)` when invoked with a
path: `open(filename, 'w')`, the writes, and then the function returns —
the source contains no `close()` call and no `with` block. -/
def writePathTrace (g : GridData) (m : ℚ) : List FileEv :=
  FileEv.openFile :: (write g m).map FileEv.writeEv

/-- The stream events of `read(path)` when invoked with a path:
`open(filename, 'r')` followed by the `readline()` calls actually made
before `read` returns or raises; the source contains no `close()` call on
any exit path. -/
def readPathTrace (ls : List Str) : List FileEv :=
  FileEv.openFile :: (ls.take (ls.length - (read ls).2.length)).map FileEv.readEv

end arcinfo

deriving instance DecidableEq for Except

/-! ### Lemmas about `pySplit` -/

theorem pySplitAux_nonws_append (t : Str) (ht : ∀ c ∈ t, isWS c = false) :
    ∀ (s : Str) (acc : Str), pySplitAux (t ++ s) acc = pySplitAux s (t.reverse ++ acc) := by
  induction t with
  | nil => intro s acc; simp
  | cons c cs ih =>
    intro s acc
    have hc : isWS c = false := ht c (List.mem_cons_self c cs)
    have ih' := ih (fun x hx => ht x (List.mem_cons_of_mem c hx)) s (c :: acc)
    simp only [List.cons_append, pySplitAux, hc, Bool.false_eq_true, if_false]
    rw [List.append_eq, ih']
    simp

theorem pySplitAux_nil_ne (acc : Str) (h : acc ≠ []) :
    pySplitAux [] acc = [acc.reverse] := by
  cases acc with
  | nil => exact absurd rfl h
  | cons a l => rfl

theorem pySplitAux_ws_cons_nil (c : Char) (hc : isWS c = true) (s : Str) :
    pySplitAux (c :: s) [] = pySplitAux s [] := by
  simp [pySplitAux, hc]

theorem pySplitAux_ws_cons_ne (c : Char) (hc : isWS c = true) (s acc : Str)
    (h : acc ≠ []) : pySplitAux (c :: s) acc = acc.reverse :: pySplitAux s [] := by
  cases acc with
  | nil => exact absurd rfl h
  | cons a l => simp [pySplitAux, hc]

theorem isTok_ne_nil {t : Str} (h : isTok t = true) : t ≠ [] := by
  simp only [isTok, Bool.and_eq_true, Bool.not_eq_true'] at h
  intro hnil
  rw [hnil] at h
  simp [List.isEmpty] at h

theorem isTok_all_nonws {t : Str} (h : isTok t = true) :
    ∀ c ∈ t, isWS c = false := by
  simp only [isTok, Bool.and_eq_true, Bool.not_eq_true', List.all_eq_true] at h
  intro c hc
  simpa using h.2 c hc

theorem pySplit_tok {t : Str} (h : isTok t = true) : pySplit t = [t] := by
  have := pySplitAux_nonws_append t (isTok_all_nonws h) [] []
  simp only [List.append_nil] at this
  rw [pySplit, this, pySplitAux_nil_ne, List.reverse_reverse]
  simp [isTok_ne_nil h]

theorem pySplit_flatten_tokens (ts : List Str) (h : ∀ t ∈ ts, isTok t = true) :
    pySplit ((ts.map (fun t => t ++ [' '])).flatten) = ts := by
  induction ts with
  | nil => rfl
  | cons t rest ih =>
    have ht : isTok t = true := h t (List.mem_cons_self t rest)
    have hrest : ∀ u ∈ rest, isTok u = true := fun u hu => h u (List.mem_cons_of_mem t hu)
    have h1 : (t ++ [' ']) ++ (rest.map (fun u => u ++ [' '])).flatten =
        t ++ (' ' :: (rest.map (fun u => u ++ [' '])).flatten) := by simp
    rw [List.map_cons, List.flatten_cons, pySplit, h1,
      pySplitAux_nonws_append t (isTok_all_nonws ht),
      pySplitAux_ws_cons_ne ' ' (by decide) _ _ (by simp [isTok_ne_nil ht]),
      List.append_nil, List.reverse_reverse]
    exact congrArg (t :: ·) (ih hrest)

theorem pySplitAux_replicate_ws (k : Nat) (s : Str) :
    pySplitAux (List.replicate k ' ' ++ s) [] = pySplitAux s [] := by
  induction k with
  | zero => rfl
  | succ n ih =>
    rw [List.replicate_succ, List.cons_append, pySplitAux_ws_cons_nil ' ' (by decide)]
    exact ih

theorem pySplit_kw_pad_val (kw v : Str) (k : Nat) (hkw : isTok kw = true)
    (hv : isTok v = true) :
    pySplit (kw ++ List.replicate (k + 1) ' ' ++ v) = [kw, v] := by
  rw [List.append_assoc, pySplit,
    pySplitAux_nonws_append kw (isTok_all_nonws hkw), List.append_nil,
    List.replicate_succ, List.cons_append,
    pySplitAux_ws_cons_ne ' ' (by decide) _ _ (by simp [isTok_ne_nil hkw]),
    List.reverse_reverse, pySplitAux_replicate_ws]
  exact congrArg (kw :: ·) (pySplit_tok hv)

/-! ### Lemmas about decimal rendering and parsing -/

theorem natDigitsRevAux_fuel (f1 : Nat) :
    ∀ (f2 n : Nat), n ≤ f1 → n ≤ f2 → natDigitsRevAux f1 n = natDigitsRevAux f2 n := by
  induction f1 with
  | zero =>
    intro f2 n h1 _
    interval_cases n
    cases f2 <;> rfl
  | succ a ih =>
    intro f2 n h1 h2
    match n, f2 with
    | 0, f2 => cases f2 <;> rfl
    | m + 1, b + 1 =>
      simp only [natDigitsRevAux]
      have hd : (m + 1) / 10 < m + 1 := Nat.div_lt_self (Nat.succ_pos m) (by omega)
      exact congrArg _ (ih b ((m + 1) / 10) (by omega) (by omega))

theorem natDigitsRev_pos (n : Nat) (h : 0 < n) :
    natDigitsRev n = digitChar (n % 10) :: natDigitsRev (n / 10) := by
  obtain ⟨m, rfl⟩ : ∃ m, n = m + 1 := ⟨n - 1, by omega⟩
  show natDigitsRevAux (m + 1) (m + 1) = _
  simp only [natDigitsRevAux]
  have hd : (m + 1) / 10 < m + 1 := Nat.div_lt_self (Nat.succ_pos m) (by omega)
  exact congrArg _ (natDigitsRevAux_fuel m _ _ (by omega) le_rfl)

theorem natRepr_pos (n : Nat) (h : 0 < n) : natRepr n = (natDigitsRev n).reverse := by
  obtain ⟨m, rfl⟩ : ∃ m, n = m + 1 := ⟨n - 1, by omega⟩
  rfl

theorem digitChar_isDigit {d : Nat} (h : d < 10) : (digitChar d).isDigit = true := by
  interval_cases d <;> decide

theorem digitVal_digitChar {d : Nat} (h : d < 10) : digitVal (digitChar d) = d := by
  interval_cases d <;> decide

theorem natDigitsRev_all_digits (n : Nat) : ∀ c ∈ natDigitsRev n, c.isDigit = true := by
  induction n using Nat.strong_induction_on with
  | _ n ih =>
    rcases Nat.eq_zero_or_pos n with rfl | hpos
    · intro c hc; simp [natDigitsRev, natDigitsRevAux] at hc
    · rw [natDigitsRev_pos n hpos]
      intro c hc
      rcases List.mem_cons.mp hc with rfl | hc'
      · exact digitChar_isDigit (Nat.mod_lt n (by omega))
      · exact ih (n / 10) (Nat.div_lt_self hpos (by omega)) c hc'

theorem parseDigitsAux_append (xs ys : List Char) :
    ∀ acc, parseDigitsAux (xs ++ ys) acc =
      match parseDigitsAux xs acc with
      | some a => parseDigitsAux ys a
      | none => none := by
  induction xs with
  | nil => intro acc; rfl
  | cons c cs ih =>
    intro acc
    by_cases hc : c.isDigit
    · simp only [List.cons_append, parseDigitsAux, hc, if_true]
      exact ih _
    · simp only [List.cons_append, parseDigitsAux, hc, Bool.false_eq_true, if_false]

theorem parseDigitsAux_natDigitsRev (n : Nat) (hn : 0 < n) :
    ∀ acc, parseDigitsAux (natDigitsRev n).reverse acc =
      some (acc * 10 ^ (natDigitsRev n).length + n) := by
  induction n using Nat.strong_induction_on with
  | _ n ih =>
    intro acc
    have hmod : n % 10 < 10 := Nat.mod_lt n (by omega)
    rw [natDigitsRev_pos n hn]
    rcases Nat.eq_zero_or_pos (n / 10) with hz | hq
    · have h10 : n % 10 = n := by omega
      rw [hz]
      have hz' : natDigitsRev 0 = [] := rfl
      rw [hz']
      show parseDigitsAux ([] ++ [digitChar (n % 10)]) acc = _
      simp only [List.nil_append, parseDigitsAux, digitChar_isDigit hmod, if_true,
        digitVal_digitChar hmod, List.length_cons, List.length_nil]
      rw [h10]
      norm_num
    · rw [List.reverse_cons, parseDigitsAux_append,
        ih (n / 10) (Nat.div_lt_self hn (by omega)) hq acc]
      simp only [parseDigitsAux, digitChar_isDigit hmod, if_true, digitVal_digitChar hmod,
        List.length_cons]
      refine congrArg some ?_
      rw [pow_succ]
      calc (acc * 10 ^ (natDigitsRev (n / 10)).length + n / 10) * 10 + n % 10
          = acc * (10 ^ (natDigitsRev (n / 10)).length * 10) +
              (10 * (n / 10) + n % 10) := by ring
        _ = acc * (10 ^ (natDigitsRev (n / 10)).length * 10) + n := by
              rw [Nat.div_add_mod]

theorem pyInt_natRepr (n : Nat) : pyInt (natRepr n) = some (n : Int) := by
  rcases Nat.eq_zero_or_pos n with rfl | hpos
  · decide
  · have hne : natDigitsRev n ≠ [] := by
      rw [natDigitsRev_pos n hpos]; simp
    have hrev : (natDigitsRev n).reverse ≠ [] := by simpa using hne
    obtain ⟨c, cs, hcons⟩ := List.exists_cons_of_ne_nil hrev
    have hrepr : natRepr n = c :: cs := by rw [natRepr_pos n hpos, hcons]
    have hcdig : c.isDigit = true := by
      refine natDigitsRev_all_digits n c ?_
      have hmem : c ∈ (natDigitsRev n).reverse := by rw [hcons]; simp
      simpa using hmem
    have hcm : c ≠ '-' := by intro h; rw [h] at hcdig; simp at hcdig
    have hcp : c ≠ '+' := by intro h; rw [h] at hcdig; simp at hcdig
    rw [hrepr, pyInt]
    simp only [hcm, hcp, if_false]
    rw [← hcons, parseNatDigits]
    · rw [parseDigitsAux_natDigitsRev n hpos 0]
      simp
    · rw [hcons]; simp

theorem natRepr_all_digits (n : Nat) : ∀ c ∈ natRepr n, c.isDigit = true := by
  rcases Nat.eq_zero_or_pos n with rfl | hpos
  · decide
  · intro c hc
    refine natDigitsRev_all_digits n c ?_
    rw [natRepr_pos n hpos] at hc
    simpa using hc

theorem isWS_eq_false_of_isDigit {c : Char} (h : c.isDigit = true) : isWS c = false := by
  have hge : ('0' : Char) ≤ c := by
    simp only [Char.isDigit, Bool.and_eq_true, decide_eq_true_eq] at h
    exact h.1
  simp only [isWS, Bool.or_eq_false_iff, decide_eq_false_iff_not]
  refine ⟨⟨⟨⟨⟨?_, ?_⟩, ?_⟩, ?_⟩, ?_⟩, ?_⟩ <;>
    (intro hceq; rw [hceq] at hge; exact absurd hge (by decide))

theorem natRepr_ne_nil (n : Nat) : natRepr n ≠ [] := by
  rcases Nat.eq_zero_or_pos n with rfl | hpos
  · decide
  · rw [natRepr_pos n hpos]
    have hne : natDigitsRev n ≠ [] := by rw [natDigitsRev_pos n hpos]; simp
    simpa using hne

theorem natRepr_isTok (n : Nat) : isTok (natRepr n) = true := by
  simp only [isTok, Bool.and_eq_true, Bool.not_eq_true', List.all_eq_true]
  constructor
  · cases h : natRepr n with
    | nil => exact absurd h (natRepr_ne_nil n)
    | cons a l => rfl
  · intro c hc
    simpa using isWS_eq_false_of_isDigit (natRepr_all_digits n c hc)

/-! ### Characterisation of the header parse -/

namespace arcinfo

/-- The token header line `i` delivers: the second whitespace-separated
token of the line (what the `split()[1]` of `rd()` extracts). -/
def hTok (st : List Str) (i : Nat) : Option Str := (pySplit (st.getD i []))[1]?

/-- What `int(rd())` yields on an optional second token. -/
def intTok (t : Option Str) : Except ReadErr Int :=
  match t with
  | none => .error .headerIndexError
  | some s =>
    match pyInt s with
    | none => .error .headerValueError
    | some n => .ok n

theorem readline_eq (st : List Str) : readline st = (st.headD [], st.drop 1) := by
  cases st <;> rfl

theorem headD_getD_zero (st : List Str) : st.headD [] = st.getD 0 [] := by
  cases st <;> rfl

theorem rd_eq (st : List Str) : rd st = ((pySplit (st.getD 0 []))[1]?, st.drop 1) := by
  unfold rd
  rw [readline_eq, headD_getD_zero]

theorem rdInt_eq (st : List Str) :
    rdInt st = (intTok (hTok st 0), st.drop 1) := by
  unfold rdInt hTok
  rw [rd_eq]
  cases h : (pySplit (st.getD 0 []))[1]? with
  | none => rfl
  | some s =>
    dsimp only [intTok]
    cases pyInt s <;> rfl

/-- What `float(rd())` yields on an optional second token. -/
def floatTok (t : Option Str) : Except ReadErr ℚ :=
  match t with
  | none => .error .headerIndexError
  | some s =>
    match pyFloat s with
    | none => .error .headerValueError
    | some q => .ok q

theorem rdFloat_eq (st : List Str) :
    rdFloat st = (floatTok (hTok st 0), st.drop 1) := by
  unfold rdFloat hTok
  rw [rd_eq]
  cases h : (pySplit (st.getD 0 []))[1]? with
  | none => rfl
  | some s =>
    dsimp only [floatTok]
    cases pyFloat s <;> rfl

theorem getD_drop (st : List Str) (k i : Nat) :
    (st.drop k).getD i [] = st.getD (k + i) [] := by
  induction k generalizing st with
  | zero => simp
  | succ m ih =>
    cases st with
    | nil => simp
    | cons l ls =>
      rw [List.drop_succ_cons, ih ls]
      have harith : m + 1 + i = (m + i) + 1 := by omega
      rw [harith, List.getD_cons_succ]

theorem hTok_drop (st : List Str) (k i : Nat) :
    hTok (st.drop k) i = hTok st (k + i) := by
  unfold hTok
  rw [getD_drop]

/-- The header parse as a function of the six second tokens only. -/
def headerOfToks (t0 t1 t2 t3 t4 t5 : Option Str) :
    Except ReadErr (Int × Int × ℚ × ℚ × ℚ × ℚ) :=
  match intTok t0 with
  | .error e => .error e
  | .ok nx =>
  match intTok t1 with
  | .error e => .error e
  | .ok ny =>
  match floatTok t2 with
  | .error e => .error e
  | .ok xo =>
  match floatTok t3 with
  | .error e => .error e
  | .ok yo =>
  match floatTok t4 with
  | .error e => .error e
  | .ok dx =>
  match floatTok t5 with
  | .error e => .error e
  | .ok missing => .ok (nx, ny, xo, yo, dx, missing)

theorem readHeader_eq (st : List Str) (v : Int × Int × ℚ × ℚ × ℚ × ℚ)
    (hv : headerOfToks (hTok st 0) (hTok st 1) (hTok st 2) (hTok st 3) (hTok st 4) (hTok st 5) = .ok v) :
    readHeader st = (.ok v, st.drop 6) := by
  unfold readHeader
  unfold headerOfToks at hv
  rw [rdInt_eq st]
  cases h0 : intTok (hTok st 0) with
  | error e => rw [h0] at hv; exact absurd hv (by simp)
  | ok nx =>
    rw [h0] at hv
    dsimp only
    rw [rdInt_eq (st.drop 1), hTok_drop]
    cases h1 : intTok (hTok st 1) with
    | error e => rw [h1] at hv; exact absurd hv (by simp)
    | ok ny =>
      rw [h1] at hv
      dsimp only
      rw [List.drop_drop, rdFloat_eq (st.drop (1 + 1)), hTok_drop]
      cases h2 : floatTok (hTok st 2) with
      | error e => rw [h2] at hv; exact absurd hv (by simp)
      | ok xo =>
        rw [h2] at hv
        dsimp only
        rw [List.drop_drop, rdFloat_eq (st.drop (1 + (1 + 1))), hTok_drop]
        cases h3 : floatTok (hTok st 3) with
        | error e => rw [h3] at hv; exact absurd hv (by simp)
        | ok yo =>
          rw [h3] at hv
          dsimp only
          rw [List.drop_drop, rdFloat_eq (st.drop (1 + (1 + (1 + 1)))), hTok_drop]
          cases h4 : floatTok (hTok st 4) with
          | error e => rw [h4] at hv; exact absurd hv (by simp)
          | ok dx =>
            rw [h4] at hv
            dsimp only
            rw [List.drop_drop, rdFloat_eq (st.drop (1 + (1 + (1 + (1 + 1))))), hTok_drop]
            cases h5 : floatTok (hTok st 5) with
            | error e => rw [h5] at hv; exact absurd hv (by simp)
            | ok missing =>
              rw [h5] at hv
              dsimp only
              rw [List.drop_drop]
              simp only [Except.ok.injEq] at hv
              rw [hv]

theorem intTok_ok_iff (t : Option Str) (n : Int) :
    intTok t = .ok n ↔ t.bind pyInt = some n := by
  cases t with
  | none => simp [intTok]
  | some s => cases h : pyInt s <;> simp [intTok, h]

theorem floatTok_ok_iff (t : Option Str) (q : ℚ) :
    floatTok t = .ok q ↔ t.bind pyFloat = some q := by
  cases t with
  | none => simp [floatTok]
  | some s => cases h : pyFloat s <;> simp [floatTok, h]

theorem headerOfToks_ok_iff (t0 t1 t2 t3 t4 t5 : Option Str)
    (nx ny : Int) (xo yo dx ms : ℚ) :
    headerOfToks t0 t1 t2 t3 t4 t5 = .ok (nx, ny, xo, yo, dx, ms) ↔
      intTok t0 = .ok nx ∧ intTok t1 = .ok ny ∧ floatTok t2 = .ok xo ∧
      floatTok t3 = .ok yo ∧ floatTok t4 = .ok dx ∧ floatTok t5 = .ok ms := by
  unfold headerOfToks
  cases intTok t0 <;> cases intTok t1 <;> cases floatTok t2 <;>
    cases floatTok t3 <;> cases floatTok t4 <;> cases floatTok t5 <;>
    simp

theorem readHeader_fst (st : List Str) :
    (readHeader st).1 =
      headerOfToks (hTok st 0) (hTok st 1) (hTok st 2) (hTok st 3) (hTok st 4) (hTok st 5) := by
  unfold readHeader headerOfToks
  rw [rdInt_eq st]
  cases h0 : intTok (hTok st 0) with
  | error e => rfl
  | ok nx =>
    dsimp only
    rw [rdInt_eq (st.drop 1), hTok_drop]
    cases h1 : intTok (hTok st 1) with
    | error e => rfl
    | ok ny =>
      dsimp only
      rw [List.drop_drop, rdFloat_eq (st.drop (1 + 1)), hTok_drop]
      cases h2 : floatTok (hTok st 2) with
      | error e => rfl
      | ok xo =>
        dsimp only
        rw [List.drop_drop, rdFloat_eq (st.drop (1 + (1 + 1))), hTok_drop]
        cases h3 : floatTok (hTok st 3) with
        | error e => rfl
        | ok yo =>
          dsimp only
          rw [List.drop_drop, rdFloat_eq (st.drop (1 + (1 + (1 + 1)))), hTok_drop]
          cases h4 : floatTok (hTok st 4) with
          | error e => rfl
          | ok dx =>
            dsimp only
            rw [List.drop_drop, rdFloat_eq (st.drop (1 + (1 + (1 + (1 + 1))))), hTok_drop]
            cases h5 : floatTok (hTok st 5) with
            | error e => rfl
            | ok missing => rfl

theorem readHeader_ok_min_length (st : List Str) (v : Int × Int × ℚ × ℚ × ℚ × ℚ)
    (h : (readHeader st).1 = .ok v) : 6 ≤ st.length := by
  obtain ⟨nx, ny, xo, yo, dx, ms⟩ := v
  rw [readHeader_fst, headerOfToks_ok_iff, intTok_ok_iff, intTok_ok_iff,
    floatTok_ok_iff, floatTok_ok_iff, floatTok_ok_iff, floatTok_ok_iff] at h
  have h5 := h.2.2.2.2.2
  by_contra hlt
  push_neg at hlt
  have hget : st.getD 5 [] = [] := by
    rw [List.getD_eq_getElem?_getD, List.getElem?_eq_none (by omega)]
    rfl
  unfold hTok at h5
  rw [hget] at h5
  simp [pySplit, pySplitAux] at h5

theorem readHeader_ok_snd (st : List Str) (v : Int × Int × ℚ × ℚ × ℚ × ℚ)
    (h : (readHeader st).1 = .ok v) : (readHeader st).2 = st.drop 6 := by
  have hv : headerOfToks (hTok st 0) (hTok st 1) (hTok st 2) (hTok st 3)
      (hTok st 4) (hTok st 5) = .ok v := by
    rw [← readHeader_fst]
    exact h
  rw [readHeader_eq st v hv]

end arcinfo

/-! ### Lemmas about the row-reading loop -/

theorem mapM_some_length {α β : Type} (f : α → Option β) :
    ∀ (ts : List α) (vs : List β), ts.mapM f = some vs → vs.length = ts.length := by
  intro ts
  induction ts with
  | nil => intro vs h; simp only [List.mapM_nil, Option.pure_def, Option.some.injEq] at h; simp [← h]
  | cons t ts ih =>
    intro vs h
    rw [List.mapM_cons] at h
    cases hf : f t with
    | none => rw [hf] at h; simp at h
    | some v =>
      rw [hf] at h
      cases hrest : ts.mapM f with
      | none => rw [hrest] at h; simp at h
      | some ws =>
        rw [hrest] at h
        simp only [Option.pure_def, Option.bind_eq_bind, Option.some_bind,
          Option.some.injEq] at h
        rw [← h]
        simp [ih ws hrest]

theorem mapM_map_roundtrip {α : Type} (fmt : α → Str)
    (g : Str → Option α) :
    ∀ (l : List α), (∀ v ∈ l, g (fmt v) = some v) → (l.map fmt).mapM g = some l := by
  intro l
  induction l with
  | nil => intro _; rfl
  | cons v vs ih =>
    intro h
    rw [List.map_cons, List.mapM_cons, h v (List.mem_cons_self v vs),
      ih (fun w hw => h w (List.mem_cons_of_mem v hw))]
    rfl

namespace arcinfo

theorem assignRow_ok_length (nx : Nat) (vs rows : List ℚ)
    (h : assignRow nx vs = .ok rows) : rows.length = nx := by
  unfold assignRow at h
  by_cases hl : vs.length = nx
  · rw [if_pos hl] at h
    simp only [Except.ok.injEq] at h
    rw [← h]; exact hl
  · rw [if_neg hl] at h
    match vs, h with
    | [v], h =>
      simp only [Except.ok.injEq] at h
      rw [← h]; simp

theorem readRows_ok_len (nx : Nat) :
    ∀ (k : Nat) (st : List Str) (rows : List (List ℚ)),
      (readRows nx k st).1 = .ok rows → rows.length = k := by
  intro k
  induction k with
  | zero =>
    intro st rows h
    simp only [readRows, Except.ok.injEq] at h
    rw [← h]; rfl
  | succ k ih =>
    intro st rows h
    unfold readRows at h
    rw [readline_eq] at h
    dsimp only at h
    cases h1 : rowRes nx (st.headD []) with
    | error e => rw [h1] at h; simp at h
    | ok row =>
      rw [h1] at h
      dsimp only at h
      rcases hp : readRows nx k (st.drop 1) with ⟨res, st2⟩
      rw [hp] at h
      cases res with
      | error e => simp at h
      | ok rows' =>
        dsimp only at h
        simp only [Except.ok.injEq] at h
        rw [← h]
        have hlen : rows'.length = k := by
          have : (readRows nx k (st.drop 1)).1 = .ok rows' := by rw [hp]
          exact ih (st.drop 1) rows' this
        simp [hlen]

theorem readRows_succ (nx k : Nat) (st : List Str) :
    readRows nx (k + 1) st =
      match rowRes nx (st.headD []) with
      | .error e => (.error e, st.drop 1)
      | .ok row =>
        match readRows nx k (st.drop 1) with
        | (.error e, st2) => (.error e, st2)
        | (.ok rows, st2) => (.ok (rows ++ [row]), st2) := by
  cases st <;> rfl

theorem readRows_ok_snd (nx : Nat) :
    ∀ (k : Nat) (st : List Str) (rows : List (List ℚ)),
      (readRows nx k st).1 = .ok rows → (readRows nx k st).2 = st.drop k := by
  intro k
  induction k with
  | zero => intro st rows _; rfl
  | succ k ih =>
    intro st rows h
    rw [readRows_succ] at h ⊢
    cases h1 : rowRes nx (st.headD []) with
    | error e => rw [h1] at h; simp at h
    | ok row =>
      rw [h1] at h
      dsimp only at h ⊢
      rcases hp : readRows nx k (st.drop 1) with ⟨res, st2⟩
      cases res with
      | error e =>
        rw [hp] at h
        simp at h
      | ok rows' =>
        dsimp only
        have hfst : (readRows nx k (st.drop 1)).1 = .ok rows' := by rw [hp]
        have h2 := ih (st.drop 1) rows' hfst
        rw [hp] at h2
        dsimp only at h2
        rw [h2, List.drop_drop, Nat.add_comm 1 k]

theorem take_succ_eq_cons (l1 l2 : List Str) (k : Nat)
    (h : l1.take (k + 1) = l2.take (k + 1)) :
    l1.headD [] = l2.headD [] ∧ (l1.drop 1).take k = (l2.drop 1).take k := by
  cases l1 with
  | nil =>
    cases l2 with
    | nil => exact ⟨rfl, rfl⟩
    | cons b bs => simp at h
  | cons a as =>
    cases l2 with
    | nil => simp at h
    | cons b bs =>
      simp only [List.take_succ_cons, List.cons.injEq] at h
      exact ⟨h.1, by simpa using h.2⟩

theorem readRows_fst_take (nx : Nat) :
    ∀ (k : Nat) (st1 st2 : List Str), st1.take k = st2.take k →
      (readRows nx k st1).1 = (readRows nx k st2).1 := by
  intro k
  induction k with
  | zero => intro st1 st2 _; rfl
  | succ k ih =>
    intro st1 st2 htake
    obtain ⟨hhead, htail⟩ := take_succ_eq_cons st1 st2 k htake
    rw [readRows_succ, readRows_succ, hhead]
    cases h1 : rowRes nx (st2.headD []) with
    | error e => rfl
    | ok row =>
      dsimp only
      rcases hp1 : readRows nx k (st1.drop 1) with ⟨res1, sa⟩
      rcases hp2 : readRows nx k (st2.drop 1) with ⟨res2, sb⟩
      have : res1 = res2 := by
        have := ih (st1.drop 1) (st2.drop 1) htail
        rw [hp1, hp2] at this
        exact this
      rw [this]
      cases res2 <;> rfl

end arcinfo

namespace arcinfo

/-- Whether a codec result is a success. -/
def resOk {α : Type} : Except ReadErr α → Bool
  | .ok _ => true
  | .error _ => false

theorem resOk_error {α : Type} (e : ReadErr) : resOk (α := α) (.error e) = false := rfl

theorem readRows_ok_getD (nx : Nat) :
    ∀ (k : Nat) (st : List Str) (rows : List (List ℚ)),
      (readRows nx k st).1 = .ok rows →
      ∀ t, t < k → rowRes nx (st.getD t []) = .ok (rows.getD (k - 1 - t) []) := by
  intro k
  induction k with
  | zero => intro st rows _ t ht; omega
  | succ k ih =>
    intro st rows h t ht
    rw [readRows_succ] at h
    cases h1 : rowRes nx (st.headD []) with
    | error e => rw [h1] at h; simp at h
    | ok row =>
      rw [h1] at h
      dsimp only at h
      rcases hp : readRows nx k (st.drop 1) with ⟨res, st2⟩
      rw [hp] at h
      cases res with
      | error e => simp at h
      | ok rows' =>
        dsimp only at h
        simp only [Except.ok.injEq] at h
        have hlen : rows'.length = k :=
          readRows_ok_len nx k (st.drop 1) rows' (by rw [hp])
        cases t with
        | zero =>
          rw [← headD_getD_zero, h1, ← h]
          have hk : k + 1 - 1 - 0 = k := by omega
          rw [hk, List.getD_append_right rows' [row] [] k (by omega)]
          simp [hlen]
        | succ u =>
          have hrec := ih (st.drop 1) rows' (by rw [hp]) u (by omega)
          rw [getD_drop] at hrec
          have hidx : 1 + u = u + 1 := by omega
          rw [hidx] at hrec
          rw [hrec, ← h]
          have hlt : k - 1 - u < rows'.length := by omega
          have hidx2 : k + 1 - 1 - (u + 1) = k - 1 - u := by omega
          rw [hidx2, List.getD_append rows' [row] [] (k - 1 - u) hlt]

theorem readRows_append (nx : Nat) (pRow : Nat → List ℚ) :
    ∀ (k : Nat) (lines rest : List Str),
      lines.length = k →
      (∀ i, i < k → rowRes nx (lines.getD i []) = .ok (pRow (k - 1 - i))) →
      readRows nx k (lines ++ rest) = (.ok ((List.range k).map pRow), rest) := by
  intro k
  induction k with
  | zero =>
    intro lines rest hlen _
    rw [List.length_eq_zero.mp hlen]
    rfl
  | succ k ih =>
    intro lines rest hlen hrow
    cases lines with
    | nil => simp at hlen
    | cons l0 ls =>
      rw [readRows_succ]
      have h0 := hrow 0 (by omega)
      simp only [List.getD_cons_zero] at h0
      have hhead : ((l0 :: ls) ++ rest).headD [] = l0 := rfl
      rw [hhead, h0]
      dsimp only
      have hdrop : ((l0 :: ls) ++ rest).drop 1 = ls ++ rest := rfl
      rw [hdrop]
      have hlen' : ls.length = k := by simpa using hlen
      have hrow' : ∀ i, i < k → rowRes nx (ls.getD i []) = .ok (pRow (k - 1 - i)) := by
        intro i hi
        have := hrow (i + 1) (by omega)
        simp only [List.getD_cons_succ] at this
        have hidx : k + 1 - 1 - (i + 1) = k - 1 - i := by omega
        rw [hidx] at this
        exact this
      rw [ih ls rest hlen' hrow']
      dsimp only
      rw [List.range_succ, List.map_append]
      have hk : k + 1 - 1 - 0 = k := by omega
      rw [hk] at h0 ⊢
      rfl

theorem rowRes_nil_err (nx : Nat) (hnx : 1 ≤ nx) :
    rowRes nx [] = .error .rowBroadcastError := by
  unfold rowRes parseRowTokens assignRow
  have hsplit : pySplit ([] : Str) = [] := rfl
  rw [hsplit]
  have hmap : ([] : List Str).mapM pyFloat = some [] := rfl
  rw [hmap]
  dsimp only
  rw [if_neg (by simp; omega)]

theorem readRows_err_short (nx : Nat) (hnx : 1 ≤ nx) :
    ∀ (k : Nat) (st : List Str), st.length < k → resOk ((readRows nx k st).1) = false := by
  intro k
  induction k with
  | zero => intro st h; omega
  | succ k ih =>
    intro st hlen
    rw [readRows_succ]
    cases st with
    | nil =>
      have hhead : (([] : List Str)).headD [] = [] := rfl
      rw [hhead, rowRes_nil_err nx hnx]
      rfl
    | cons l ls =>
      have hhead : ((l :: ls)).headD [] = l := rfl
      rw [hhead]
      cases h1 : rowRes nx l with
      | error e => rfl
      | ok row =>
        dsimp only
        have hdrop : (l :: ls).drop 1 = ls := rfl
        rw [hdrop]
        rcases hp : readRows nx k ls with ⟨res, st2⟩
        have hih := ih ls (by simpa using hlen)
        rw [hp] at hih
        cases res with
        | error e => rfl
        | ok rows => simp [resOk] at hih

theorem readRows_err_badrow (nx : Nat) :
    ∀ (k : Nat) (st : List Str) (r : Nat), r < k →
      (pySplit (st.getD r [])).length ≠ nx →
      (pySplit (st.getD r [])).length ≠ 1 →
      resOk ((readRows nx k st).1) = false := by
  intro k
  induction k with
  | zero => intro st r hr _ _; omega
  | succ k ih =>
    intro st r hr hne hne1
    rw [readRows_succ]
    cases r with
    | zero =>
      rw [← headD_getD_zero] at hne hne1
      cases h1 : rowRes nx (st.headD []) with
      | error e => rfl
      | ok row =>
        exfalso
        unfold rowRes parseRowTokens at h1
        cases hm : (pySplit (st.headD [])).mapM pyFloat with
        | none => rw [hm] at h1; simp at h1
        | some vs =>
          rw [hm] at h1
          dsimp only at h1
          have hvs : vs.length = (pySplit (st.headD [])).length :=
            mapM_some_length pyFloat _ vs hm
          unfold assignRow at h1
          rw [if_neg (by omega)] at h1
          match vs, h1, hvs with
          | [v], h1, hvs =>
            exact hne1 (by simp only [List.length_singleton] at hvs; omega)
    | succ u =>
      cases h1 : rowRes nx (st.headD []) with
      | error e => rfl
      | ok row =>
        dsimp only
        rcases hp : readRows nx k (st.drop 1) with ⟨res, st2⟩
        have hget : (st.drop 1).getD u [] = st.getD (u + 1) [] := by
          rw [getD_drop]
          have : 1 + u = u + 1 := by omega
          rw [this]
        have hih := ih (st.drop 1) u (by omega) (by rw [hget]; exact hne)
          (by rw [hget]; exact hne1)
        rw [hp] at hih
        cases res with
        | error e => rfl
        | ok rows => simp [resOk] at hih

end arcinfo

/-! ### The lines written by `write`, token by token -/

namespace arcinfo

/-- The value `write` renders at cell `(i, j)`: the missing sentinel if
the cell is masked, the stored value otherwise. -/
def cellOut (g : GridData) (m : ℚ) (i j : Nat) : ℚ :=
  if g.isMasked i j then m else g.val i j

/-- A float value whose textual rendering is a clean token and parses
back to the same value — the embedding's notion of "representable float,
up to text-formatting precision". -/
def fmtOk (v : ℚ) : Prop :=
  isTok (formatRat v) = true ∧ pyFloat (formatRat v) = some v

instance (v : ℚ) : Decidable (fmtOk v) := by
  unfold fmtOk
  infer_instance

/-- The six header keywords, in the order `write` emits them. -/
def headerKws : List Str :=
  ["ncols".toList, "nrows".toList, "xllcorner".toList, "yllcorner".toList,
   "cellsize".toList, "NODATA_value".toList]

/-- The six header value tokens, in the order `write` emits them. -/
def headerToks (nx ny : Nat) (xo yo dx m : ℚ) : List Str :=
  [natRepr nx, natRepr ny, formatRat xo, formatRat yo, formatRat dx, formatRat m]

theorem headerLines_eq_zip (nx ny : Nat) (xo yo dx m : ℚ) :
    headerLines nx ny xo yo dx m =
      List.zipWith (fun kw t => padTo16 kw ++ t) headerKws (headerToks nx ny xo yo dx m) := rfl

theorem writeRows_length (g : GridData) (m : ℚ) (nx : Nat) :
    ∀ k, (writeRows g m nx k).length = k := by
  intro k
  induction k with
  | zero => rfl
  | succ k ih => simp [writeRows, ih]

theorem writeRows_getD (g : GridData) (m : ℚ) (nx : Nat) :
    ∀ k i, i < k → (writeRows g m nx k).getD i [] = rowLine g m nx (k - 1 - i) := by
  intro k
  induction k with
  | zero => intro i hi; omega
  | succ k ih =>
    intro i hi
    cases i with
    | zero => simp [writeRows]
    | succ u =>
      have := ih u (by omega)
      simp only [writeRows, List.getD_cons_succ]
      rw [this]
      have harith : k + 1 - 1 - (u + 1) = k - 1 - u := by omega
      rw [harith]

theorem rowLine_eq (g : GridData) (m : ℚ) (nx i : Nat) :
    rowLine g m nx i =
      ((((List.range nx).map (fun j => formatRat (cellOut g m i j))).map
        (fun t => t ++ [' '])).flatten) := by
  unfold rowLine cellOut
  rw [List.map_map]
  refine congrArg List.flatten (List.map_congr_left ?_)
  intro j _
  by_cases h : g.isMasked i j <;> simp [h, Function.comp]

theorem pySplit_rowLine (g : GridData) (m : ℚ) (nx i : Nat)
    (htok : ∀ j, j < nx → isTok (formatRat (cellOut g m i j)) = true) :
    pySplit (rowLine g m nx i) =
      (List.range nx).map (fun j => formatRat (cellOut g m i j)) := by
  rw [rowLine_eq]
  refine pySplit_flatten_tokens _ ?_
  intro t ht
  obtain ⟨j, hj, rfl⟩ := List.mem_map.mp ht
  exact htok j (List.mem_range.mp hj)

theorem rowRes_rowLine (g : GridData) (m : ℚ) (nx i : Nat)
    (hok : ∀ j, j < nx → fmtOk (cellOut g m i j)) :
    rowRes nx (rowLine g m nx i) = .ok ((List.range nx).map (cellOut g m i)) := by
  unfold rowRes parseRowTokens
  rw [pySplit_rowLine g m nx i (fun j hj => (hok j hj).1)]
  have hmap : (List.range nx).map (fun j => formatRat (cellOut g m i j)) =
      ((List.range nx).map (cellOut g m i)).map formatRat := by
    rw [List.map_map]; rfl
  rw [hmap, mapM_map_roundtrip formatRat pyFloat _ ?_]
  · dsimp only
    unfold assignRow
    rw [if_pos (by simp)]
  · intro v hv
    obtain ⟨j, hj, rfl⟩ := List.mem_map.mp hv
    exact (hok j (List.mem_range.mp hj)).2

theorem pySplit_headerLine (nx ny : Nat) (xo yo dx m : ℚ) (k : Nat) (hk : k < 6)
    (htok : ∀ t ∈ headerToks nx ny xo yo dx m, isTok t = true) :
    pySplit ((headerLines nx ny xo yo dx m).getD k []) =
      [headerKws.getD k [], (headerToks nx ny xo yo dx m).getD k []] := by
  have h0 := htok (natRepr nx) (by simp [headerToks])
  have h1 := htok (natRepr ny) (by simp [headerToks])
  have h2 := htok (formatRat xo) (by simp [headerToks])
  have h3 := htok (formatRat yo) (by simp [headerToks])
  have h4 := htok (formatRat dx) (by simp [headerToks])
  have h5 := htok (formatRat m) (by simp [headerToks])
  interval_cases k
  · exact pySplit_kw_pad_val _ _ 10 (by decide) h0
  · exact pySplit_kw_pad_val _ _ 10 (by decide) h1
  · exact pySplit_kw_pad_val _ _ 6 (by decide) h2
  · exact pySplit_kw_pad_val _ _ 6 (by decide) h3
  · exact pySplit_kw_pad_val _ _ 7 (by decide) h4
  · exact pySplit_kw_pad_val _ _ 3 (by decide) h5

theorem headerLines_length (nx ny : Nat) (xo yo dx m : ℚ) :
    (headerLines nx ny xo yo dx m).length = 6 := rfl

theorem write_getD_header (g : GridData) (m : ℚ) (k : Nat) (hk : k < 6) :
    (write g m).getD k [] =
      (headerLines g.shape.2 g.shape.1 g.origin.1 g.origin.2 g.delta m).getD k [] := by
  unfold write
  exact List.getD_append _ _ [] k (by rw [headerLines_length]; omega)

theorem hTok_write (g : GridData) (m : ℚ) (k : Nat) (hk : k < 6)
    (htok : ∀ t ∈ headerToks g.shape.2 g.shape.1 g.origin.1 g.origin.2 g.delta m,
      isTok t = true) :
    hTok (write g m) k =
      some ((headerToks g.shape.2 g.shape.1 g.origin.1 g.origin.2 g.delta m).getD k []) := by
  unfold hTok
  rw [write_getD_header g m k hk, pySplit_headerLine _ _ _ _ _ _ k hk htok]
  rfl

theorem write_drop_header (g : GridData) (m : ℚ) :
    (write g m).drop 6 = writeRows g m g.shape.2 g.shape.1 := by
  unfold write
  have h6 : (6 : Nat) =
      (headerLines g.shape.2 g.shape.1 g.origin.1 g.origin.2 g.delta m).length := rfl
  rw [h6, List.drop_left]

end arcinfo

/-! ### Composing `read` with `write` -/

theorem eq_range_map {α : Type} (l : List α) (n : Nat) (d : α) (f : Nat → α)
    (hlen : l.length = n) (h : ∀ i, i < n → l.getD i d = f i) :
    l = (List.range n).map f := by
  refine List.ext_getElem (by simp [hlen]) ?_
  intro i h1 h2
  have hi : i < n := by omega
  have := h i hi
  rw [List.getD_eq_getElem l d (by omega)] at this
  simp only [List.getElem_map, List.getElem_range]
  exact this

namespace arcinfo

theorem readHeader_write (g : GridData) (m : ℚ)
    (hxo : fmtOk g.origin.1) (hyo : fmtOk g.origin.2) (hdx : fmtOk g.delta)
    (hm : fmtOk m) :
    readHeader (write g m) =
      (.ok ((g.shape.2 : Int), (g.shape.1 : Int), g.origin.1, g.origin.2, g.delta, m),
        writeRows g m g.shape.2 g.shape.1) := by
  have htoks : ∀ t ∈ headerToks g.shape.2 g.shape.1 g.origin.1 g.origin.2 g.delta m,
      isTok t = true := by
    intro t ht
    simp only [headerToks, List.mem_cons, List.not_mem_nil, or_false] at ht
    rcases ht with rfl | rfl | rfl | rfl | rfl | rfl
    · exact natRepr_isTok _
    · exact natRepr_isTok _
    · exact hxo.1
    · exact hyo.1
    · exact hdx.1
    · exact hm.1
  have hv : headerOfToks (hTok (write g m) 0) (hTok (write g m) 1) (hTok (write g m) 2)
      (hTok (write g m) 3) (hTok (write g m) 4) (hTok (write g m) 5) =
      .ok ((g.shape.2 : Int), (g.shape.1 : Int), g.origin.1, g.origin.2, g.delta, m) := by
    rw [hTok_write g m 0 (by omega) htoks, hTok_write g m 1 (by omega) htoks,
      hTok_write g m 2 (by omega) htoks, hTok_write g m 3 (by omega) htoks,
      hTok_write g m 4 (by omega) htoks, hTok_write g m 5 (by omega) htoks]
    rw [headerOfToks_ok_iff]
    refine ⟨?_, ?_, ?_, ?_, ?_, ?_⟩
    · rw [intTok_ok_iff]
      simpa [headerToks] using pyInt_natRepr g.shape.2
    · rw [intTok_ok_iff]
      simpa [headerToks] using pyInt_natRepr g.shape.1
    · rw [floatTok_ok_iff]
      simpa [headerToks] using hxo.2
    · rw [floatTok_ok_iff]
      simpa [headerToks] using hyo.2
    · rw [floatTok_ok_iff]
      simpa [headerToks] using hdx.2
    · rw [floatTok_ok_iff]
      simpa [headerToks] using hm.2
  rw [readHeader_eq (write g m) _ hv, write_drop_header]

theorem read_of_ok (st : List Str) (nx ny : Int) (xo yo dx ms : ℚ) (st1 : List Str)
    (rows : List (List ℚ)) (st2 : List Str)
    (hh : readHeader st = (.ok (nx, ny, xo, yo, dx, ms), st1))
    (hnx : 0 ≤ nx) (hny : 0 ≤ ny)
    (hr : readRows nx.toNat ny.toNat st1 = (.ok rows, st2)) :
    read st = (.ok (GridData.make (xo, yo) dx rows ms), st2) := by
  unfold read
  rw [hh]
  dsimp only
  rw [if_neg (by omega)]
  rw [hr]

theorem read_ok_inv (st : List Str) (g : GridData) (rest : List Str)
    (h : read st = (.ok g, rest)) :
    ∃ nx ny : Int, ∃ xo yo dx ms : ℚ, ∃ rows : List (List ℚ),
      readHeader st = (.ok (nx, ny, xo, yo, dx, ms), (readHeader st).2) ∧
      0 ≤ nx ∧ 0 ≤ ny ∧
      readRows nx.toNat ny.toNat (readHeader st).2 = (.ok rows, rest) ∧
      g = GridData.make (xo, yo) dx rows ms := by
  unfold read at h
  rcases hh : readHeader st with ⟨res, st1⟩
  rw [hh] at h
  cases res with
  | error e => simp at h
  | ok v =>
    obtain ⟨nx, ny, xo, yo, dx, ms⟩ := v
    dsimp only at h
    by_cases hneg : nx < 0 ∨ ny < 0
    · rw [if_pos hneg] at h; simp at h
    · rw [if_neg hneg] at h
      push_neg at hneg
      rcases hr : readRows nx.toNat ny.toNat st1 with ⟨res2, st2⟩
      rw [hr] at h
      cases res2 with
      | error e => simp at h
      | ok rows =>
        dsimp only at h
        simp only [Prod.mk.injEq, Except.ok.injEq] at h
        refine ⟨nx, ny, xo, yo, dx, ms, rows, rfl, hneg.1, hneg.2, ?_, h.1.symm⟩
        dsimp only
        rw [hr, h.2]

theorem readRows_write (g : GridData) (m : ℚ)
    (hcell : ∀ i j, i < g.shape.1 → j < g.shape.2 → fmtOk (cellOut g m i j)) :
    readRows g.shape.2 g.shape.1 (writeRows g m g.shape.2 g.shape.1) =
      (.ok ((List.range g.shape.1).map
        (fun i => (List.range g.shape.2).map (cellOut g m i))), []) := by
  have hlines : (writeRows g m g.shape.2 g.shape.1).length = g.shape.1 :=
    writeRows_length g m _ _
  have happ : writeRows g m g.shape.2 g.shape.1 =
      writeRows g m g.shape.2 g.shape.1 ++ [] := by simp
  rw [happ]
  refine readRows_append g.shape.2
    (fun i => (List.range g.shape.2).map (cellOut g m i)) g.shape.1 _ [] hlines ?_
  intro i hi
  rw [writeRows_getD g m g.shape.2 g.shape.1 i hi]
  exact rowRes_rowLine g m g.shape.2 (g.shape.1 - 1 - i)
    (fun j hj => hcell (g.shape.1 - 1 - i) j (by omega) hj)

theorem read_write (g : GridData) (m : ℚ)
    (hxo : fmtOk g.origin.1) (hyo : fmtOk g.origin.2) (hdx : fmtOk g.delta)
    (hm : fmtOk m)
    (hcell : ∀ i j, i < g.shape.1 → j < g.shape.2 → fmtOk (cellOut g m i j)) :
    read (write g m) =
      (.ok (GridData.make g.origin g.delta
        ((List.range g.shape.1).map (fun i => (List.range g.shape.2).map (cellOut g m i))) m),
       []) := by
  have hh := readHeader_write g m hxo hyo hdx hm
  have hr := readRows_write g m hcell
  have := read_of_ok (write g m) g.shape.2 g.shape.1 g.origin.1 g.origin.2 g.delta m
    (writeRows g m g.shape.2 g.shape.1) _ [] hh (by omega) (by omega)
    (by simpa using hr)
  simpa using this

end arcinfo

/-! ### Remaining support lemmas -/

theorem getD_eq_of_take_eq {α : Type} (l1 l2 : List α) (k i : Nat) (d : α)
    (h : l1.take k = l2.take k) (hi : i < k) : l1.getD i d = l2.getD i d := by
  rw [List.getD_eq_getElem?_getD, List.getD_eq_getElem?_getD]
  have h1 : (l1.take k)[i]? = l1[i]? := by rw [List.getElem?_take, if_pos hi]
  have h2 : (l2.take k)[i]? = l2[i]? := by rw [List.getElem?_take, if_pos hi]
  rw [← h1, ← h2, h]

namespace arcinfo

theorem rowRes_ok_length (nx : Nat) (line : Str) (row : List ℚ)
    (h : rowRes nx line = .ok row) : row.length = nx := by
  unfold rowRes at h
  cases hp : parseRowTokens line with
  | error e => rw [hp] at h; simp at h
  | ok vs =>
    rw [hp] at h
    dsimp only at h
    exact assignRow_ok_length nx vs row h

theorem readRows_ok_mem_length (nx : Nat) :
    ∀ (k : Nat) (st : List Str) (rows : List (List ℚ)),
      (readRows nx k st).1 = .ok rows → ∀ row ∈ rows, row.length = nx := by
  intro k
  induction k with
  | zero =>
    intro st rows h row hrow
    simp only [readRows, Except.ok.injEq] at h
    rw [← h] at hrow
    simp at hrow
  | succ k ih =>
    intro st rows h row hrow
    rw [readRows_succ] at h
    cases h1 : rowRes nx (st.headD []) with
    | error e => rw [h1] at h; simp at h
    | ok row0 =>
      rw [h1] at h
      dsimp only at h
      rcases hp : readRows nx k (st.drop 1) with ⟨res, st2⟩
      rw [hp] at h
      cases res with
      | error e => simp at h
      | ok rows' =>
        dsimp only at h
        simp only [Except.ok.injEq] at h
        rw [← h] at hrow
        rcases List.mem_append.mp hrow with hmem | hmem
        · exact ih (st.drop 1) rows' (by rw [hp]) row hmem
        · have : row = row0 := by simpa using hmem
          rw [this]
          exact rowRes_ok_length nx (st.headD []) row0 h1

theorem rowRes_single_broadcast (nx : Nat) (line : Str) (row : List ℚ)
    (h : rowRes nx line = .ok row) (h1 : (pySplit line).length = 1) :
    row = List.replicate nx (row.headD 0) := by
  unfold rowRes parseRowTokens at h
  cases hm : (pySplit line).mapM pyFloat with
  | none => rw [hm] at h; simp at h
  | some vs =>
    rw [hm] at h
    dsimp only at h
    have hvs : vs.length = 1 := by rw [mapM_some_length pyFloat _ vs hm, h1]
    match vs, hvs, h with
    | [v], _, h =>
      unfold assignRow at h
      by_cases hnx : (1 : Nat) = nx
      · rw [if_pos (by simpa using hnx)] at h
        simp only [Except.ok.injEq] at h
        rw [← h, ← hnx]
        rfl
      · rw [if_neg (by simpa using hnx)] at h
        simp only [Except.ok.injEq] at h
        rw [← h]
        cases nx with
        | zero => rfl
        | succ w => simp [List.replicate_succ]

theorem rowOps_reads (g : GridData) (nx i : Nat) :
    ∀ op ∈ rowOps g nx i, op.isRead = true := by
  intro op hop
  unfold rowOps at hop
  obtain ⟨l, hl, hopl⟩ := List.mem_flatten.mp hop
  obtain ⟨j, _, rfl⟩ := List.mem_map.mp hl
  rcases List.mem_cons.mp hopl with rfl | hop2
  · rfl
  · by_cases hmask : g.isMasked i j
    · rw [if_pos hmask] at hop2; simp at hop2
    · rw [if_neg hmask] at hop2
      have : op = GridOp.readItem i j := by simpa using hop2
      rw [this]; rfl

theorem rowsOps_reads (g : GridData) (nx : Nat) :
    ∀ k, ∀ op ∈ rowsOps g nx k, op.isRead = true := by
  intro k
  induction k with
  | zero => intro op hop; simp [rowsOps] at hop
  | succ k ih =>
    intro op hop
    rcases List.mem_append.mp hop with h | h
    · exact rowOps_reads g nx k op h
    · exact ih op h

theorem writeOps_reads (g : GridData) : ∀ op ∈ writeOps g, op.isRead = true := by
  intro op hop
  unfold writeOps at hop
  rcases List.mem_cons.mp hop with rfl | hop; · rfl
  rcases List.mem_cons.mp hop with rfl | hop; · rfl
  rcases List.mem_cons.mp hop with rfl | hop; · rfl
  rcases List.mem_cons.mp hop with rfl | hop; · rfl
  exact rowsOps_reads g g.shape.2 g.shape.1 op hop

theorem foldl_apply_of_reads (ops : List GridOp) :
    ∀ (g : GridData), (∀ op ∈ ops, op.isRead = true) →
      ops.foldl GridOp.apply g = g := by
  induction ops with
  | nil => intro g _; rfl
  | cons op ops ih =>
    intro g h
    have hop : op.isRead = true := h op (List.mem_cons_self op ops)
    have happ : GridOp.apply g op = g := by
      cases op <;> first | rfl | simp [GridOp.isRead] at hop
    rw [List.foldl_cons, happ]
    exact ih g (fun o ho => h o (List.mem_cons_of_mem op ho))

theorem contains_close_map_write (ls : List Str) :
    (ls.map FileEv.writeEv).contains FileEv.closeFile = false := by
  induction ls with
  | nil => rfl
  | cons l ls ih =>
    simp only [List.map_cons, List.contains_cons, ih, Bool.or_false]
    rfl

theorem contains_close_map_read (ls : List Str) :
    (ls.map FileEv.readEv).contains FileEv.closeFile = false := by
  induction ls with
  | nil => rfl
  | cons l ls ih =>
    simp only [List.map_cons, List.contains_cons, ih, Bool.or_false]
    rfl

end arcinfo

/-! ### The claims -/

/-- The concrete input of the spec's "Concrete scenario": a 2×2 grid with
cell size 10 and NODATA value -1, with data lines "5.0 6.0" and
"1.0 2.0". -/
def linesC2 : List Str :=
  ["ncols 2", "nrows 2", "xllcorner 0.0", "yllcorner 0.0", "cellsize 10.0",
   "NODATA_value -1.0", "5.0 6.0", "1.0 2.0"].map String.toList

/-- Claim C2: on the concrete header `ncols 2 / nrows 2 / xllcorner 0.0 /
yllcorner 0.0 / cellsize 10.0 / NODATA_value -1.0` with data lines
"5.0 6.0" then "1.0 2.0", `read` returns a GridData with storage
`values[0] = [1, 2]`, `values[1] = [5, 6]`, nothing masked, origin (0, 0)
and cell size 10; and in general the r-th data line read is assigned to
storage row `nrows - 1 - r`, so the first data line lands in storage row
`nrows - 1` and the last in storage row 0. -/
theorem c2_concrete_read :
    arcinfo.read linesC2 =
      (.ok ⟨(0, 0), 10, [[1, 2], [5, 6]], [[false, false], [false, false]]⟩, []) ∧
    ∀ (ls : List Str) (g : GridData) (rest : List Str),
      arcinfo.read ls = (.ok g, rest) →
      ∀ r, r < g.shape.1 →
        arcinfo.rowRes g.shape.2 (ls.getD (6 + r) []) =
          .ok (g.data.getD (g.shape.1 - 1 - r) []) := by
  constructor
  · decide
  · intro ls g rest h r hr
    obtain ⟨nx, ny, xo, yo, dx, ms, rows, hh, hnx, hny, hr2, hg⟩ :=
      arcinfo.read_ok_inv ls g rest h
    have hfst : (arcinfo.readHeader ls).1 = .ok (nx, ny, xo, yo, dx, ms) := by
      rw [hh]
    have hsnd : (arcinfo.readHeader ls).2 = ls.drop 6 :=
      arcinfo.readHeader_ok_snd ls _ hfst
    have hdata : g.data = rows := by rw [hg]; rfl
    have hlen : rows.length = ny.toNat :=
      arcinfo.readRows_ok_len _ _ _ _ (by rw [hr2])
    have hs1 : g.shape.1 = ny.toNat := by
      show g.data.length = _
      rw [hdata, hlen]
    have hrowlen : ∀ row ∈ rows, row.length = nx.toNat :=
      arcinfo.readRows_ok_mem_length _ _ _ _ (by rw [hr2])
    have hne : rows ≠ [] := by
      intro hnil
      rw [hnil] at hlen
      simp at hlen
      omega
    have hs2 : g.shape.2 = nx.toNat := by
      show (g.data.headD []).length = _
      rw [hdata]
      cases rows with
      | nil => exact absurd rfl hne
      | cons row0 rest2 =>
        exact hrowlen row0 (List.mem_cons_self row0 rest2)
    have hget := arcinfo.readRows_ok_getD nx.toNat ny.toNat ((arcinfo.readHeader ls).2)
      rows (by rw [hr2]) r (by omega)
    rw [hsnd, arcinfo.getD_drop] at hget
    rw [hs1, hs2, hdata]
    exact hget

/-- Witness for C2: the general row-mapping conjunct applied to the
concrete scenario at data line 0 (which lands in storage row 1). -/
theorem c2_concrete_read_witness :
    arcinfo.rowRes 2 (linesC2.getD 6 []) = .ok ([[1, 2], [5, 6]].getD 1 []) := by
  have h := c2_concrete_read.2 linesC2
    ⟨(0, 0), 10, [[1, 2], [5, 6]], [[false, false], [false, false]]⟩ []
    (by decide) 0 (by decide)
  exact h

/-- Claim C7 (supporting theorem): neither `write` nor `read` ever emits a
`close()` on the stream it opens when given a path — the traces of a
path-mode call contain the `open` and the data transfers but no close
event, on success and on every failure alike. -/
theorem c7_no_close :
    (∀ (g : GridData) (m : ℚ),
      (arcinfo.writePathTrace g m).contains arcinfo.FileEv.closeFile = false) ∧
    ∀ ls : List Str,
      (arcinfo.readPathTrace ls).contains arcinfo.FileEv.closeFile = false := by
  constructor
  · intro g m
    unfold arcinfo.writePathTrace
    rw [List.contains_cons, arcinfo.contains_close_map_write]
    rfl
  · intro ls
    unfold arcinfo.readPathTrace
    rw [List.contains_cons, arcinfo.contains_close_map_read]
    rfl

/-- Claim C9: `write` performs only read accesses on the grid it is given
(shape, origin, cell size, per-cell mask state and value); replaying its
access trace against the grid leaves the grid exactly as it was. -/
theorem c9_write_reads_only (g : GridData) :
    ((arcinfo.writeOps g).all GridOp.isRead = true) ∧
    (arcinfo.writeOps g).foldl GridOp.apply g = g := by
  have hreads := arcinfo.writeOps_reads g
  exact ⟨List.all_eq_true.mpr hreads, arcinfo.foldl_apply_of_reads _ g hreads⟩

/-- A 2×2 example grid: constructed with sentinel -7, so cell (1, 1)
(stored value -7) is masked and the other cells are live. -/
def gEx : GridData := GridData.make (0, 0) 1 [[mkRat 7 2, 1], [2, -7]] (-7)

/-- A 1×1 grid whose single cell is masked while storing the live-looking
value 3.5. -/
def gMaskEx : GridData := ⟨(0, 0), 1, [[mkRat 7 2]], [[true]]⟩

/-- Claim C3: the body `write` emits consists of exactly `ny` data lines
after the six header lines; the t-th emitted data line is storage row
`ny - 1 - t` (so the first is the southernmost row `ny - 1` and the last
is row 0), holding the `nx` column tokens west to east, where a masked
cell is rendered as the missing sentinel regardless of its stored value
(`cellOut`). -/
theorem c3_write_body (g : GridData) (m : ℚ)
    (hcell : ∀ i, i < g.shape.1 → ∀ j, j < g.shape.2 →
      isTok (formatRat (arcinfo.cellOut g m i j)) = true) :
    (arcinfo.write g m).length = 6 + g.shape.1 ∧
    ∀ t, t < g.shape.1 →
      pySplit ((arcinfo.write g m).getD (6 + t) []) =
        (List.range g.shape.2).map
          (fun j => formatRat (arcinfo.cellOut g m (g.shape.1 - 1 - t) j)) := by
  constructor
  · unfold arcinfo.write
    rw [List.length_append, arcinfo.headerLines_length, arcinfo.writeRows_length]
  · intro t ht
    have hget : (arcinfo.write g m).getD (6 + t) [] =
        (arcinfo.writeRows g m g.shape.2 g.shape.1).getD t [] := by
      unfold arcinfo.write
      rw [List.getD_append_right _ _ [] _ (by rw [arcinfo.headerLines_length]; omega)]
      rw [arcinfo.headerLines_length]
      have : 6 + t - 6 = t := by omega
      rw [this]
    rw [hget, arcinfo.writeRows_getD g m _ _ t ht]
    exact arcinfo.pySplit_rowLine g m g.shape.2 (g.shape.1 - 1 - t)
      (fun j hj => hcell (g.shape.1 - 1 - t) (by omega) j hj)

/-- Witness for C3 at the masked 1×1 grid: the single data line renders
the masked cell as the sentinel token "-9999.0", not its stored 3.5. -/
theorem c3_write_body_witness :
    pySplit ((arcinfo.write gMaskEx (-9999)).getD 6 []) =
      [formatRat (-9999)] := by
  have h := (c3_write_body gMaskEx (-9999) (by decide)).2 0 (by decide)
  simpa using h

/-- Claim C8: `write` emits exactly six header lines before any data, in
the order ncols, nrows, xllcorner, yllcorner, cellsize, NODATA_value; each
line is the keyword left-justified in a 16-character field followed by the
value token (column count, row count, origin x, origin y, cell size,
missing sentinel). -/
theorem c8_header_emission (g : GridData) (m : ℚ)
    (hxo : isTok (formatRat g.origin.1) = true) (hyo : isTok (formatRat g.origin.2) = true)
    (hdx : isTok (formatRat g.delta) = true) (hm : isTok (formatRat m) = true) :
    (arcinfo.write g m).take 6 =
      arcinfo.headerLines g.shape.2 g.shape.1 g.origin.1 g.origin.2 g.delta m ∧
    arcinfo.headerLines g.shape.2 g.shape.1 g.origin.1 g.origin.2 g.delta m =
      List.zipWith (fun kw t => arcinfo.padTo16 kw ++ t) arcinfo.headerKws
        (arcinfo.headerToks g.shape.2 g.shape.1 g.origin.1 g.origin.2 g.delta m) ∧
    ∀ k, k < 6 → pySplit ((arcinfo.write g m).getD k []) =
      [arcinfo.headerKws.getD k [],
       (arcinfo.headerToks g.shape.2 g.shape.1 g.origin.1 g.origin.2 g.delta m).getD k []] := by
  have htoks : ∀ t ∈ arcinfo.headerToks g.shape.2 g.shape.1 g.origin.1 g.origin.2 g.delta m,
      isTok t = true := by
    intro t ht
    simp only [arcinfo.headerToks, List.mem_cons, List.not_mem_nil, or_false] at ht
    rcases ht with rfl | rfl | rfl | rfl | rfl | rfl
    · exact natRepr_isTok _
    · exact natRepr_isTok _
    · exact hxo
    · exact hyo
    · exact hdx
    · exact hm
  refine ⟨?_, arcinfo.headerLines_eq_zip _ _ _ _ _ _, ?_⟩
  · unfold arcinfo.write
    have h6 : (6 : Nat) =
        (arcinfo.headerLines g.shape.2 g.shape.1 g.origin.1 g.origin.2 g.delta m).length := rfl
    rw [h6, List.take_left]
  · intro k hk
    rw [arcinfo.write_getD_header g m k hk]
    exact arcinfo.pySplit_headerLine _ _ _ _ _ _ k hk htoks

/-- Witness for C8 at a concrete grid and sentinel. -/
theorem c8_header_emission_witness :
    (arcinfo.write gEx (-9999)).take 6 =
      arcinfo.headerLines 2 2 0 0 1 (-9999) := by
  have h := (c8_header_emission gEx (-9999) (by decide) (by decide) (by decide)
    (by decide)).1
  simpa using h

/-- Claim C4: `read` parses each header line by splitting on whitespace
and taking the second token, never looking at the keyword: the header
parse succeeds with values (nx, ny, xo, yo, dx, ms) exactly when the six
second tokens parse positionally as int, int, float, float, float, float
to those values; and any two inputs whose six header lines carry the same
second tokens — keywords permuted or arbitrary — parse identically. -/
theorem c4_header_parse :
    (∀ (ls : List Str) (nx ny : Int) (xo yo dx ms : ℚ),
      (arcinfo.readHeader ls).1 = .ok (nx, ny, xo, yo, dx, ms) ↔
        (arcinfo.hTok ls 0).bind pyInt = some nx ∧
        (arcinfo.hTok ls 1).bind pyInt = some ny ∧
        (arcinfo.hTok ls 2).bind pyFloat = some xo ∧
        (arcinfo.hTok ls 3).bind pyFloat = some yo ∧
        (arcinfo.hTok ls 4).bind pyFloat = some dx ∧
        (arcinfo.hTok ls 5).bind pyFloat = some ms) ∧
    ∀ ls1 ls2 : List Str, (∀ i, i < 6 → arcinfo.hTok ls1 i = arcinfo.hTok ls2 i) →
      (arcinfo.readHeader ls1).1 = (arcinfo.readHeader ls2).1 := by
  constructor
  · intro ls nx ny xo yo dx ms
    rw [arcinfo.readHeader_fst, arcinfo.headerOfToks_ok_iff,
      arcinfo.intTok_ok_iff, arcinfo.intTok_ok_iff, arcinfo.floatTok_ok_iff,
      arcinfo.floatTok_ok_iff, arcinfo.floatTok_ok_iff, arcinfo.floatTok_ok_iff]
  · intro ls1 ls2 htok
    rw [arcinfo.readHeader_fst, arcinfo.readHeader_fst,
      htok 0 (by omega), htok 1 (by omega), htok 2 (by omega),
      htok 3 (by omega), htok 4 (by omega), htok 5 (by omega)]

/-- The C2 header with its keywords replaced by arbitrary words, values
in the documented positional order. -/
def linesPermuted : List Str :=
  ["foo 2", "bar 2", "NODATA_value 0.0", "ncols 0.0", "quux 10.0",
   "xllcorner -1.0", "5.0 6.0", "1.0 2.0"].map String.toList

/-- Witness for C4: the scrambled-keyword header parses to exactly the
same header values as the canonical one. -/
theorem c4_header_parse_witness :
    (arcinfo.readHeader linesPermuted).1 = (arcinfo.readHeader linesC2).1 := by
  exact c4_header_parse.2 linesPermuted linesC2 (by decide)

/-- A header declaring 0 columns and 3 rows, with the stream ending
immediately after the header: 0 of the declared 3 data lines are
available. -/
def linesC5 : List Str :=
  ["ncols 0", "nrows 3", "xllcorner 0.0", "yllcorner 0.0", "cellsize 1.0",
   "NODATA_value -1.0"].map String.toList

/-- Counterexample to C5 as stated: with `ncols 0`, a stream that ends
before the declared `nrows 3` data lines does NOT fail — `read` happily
returns a 3×0 grid (each missing line reads as the empty string, which
splits into the 0 tokens a width-0 row needs). -/
theorem c5_counterexample :
    linesC5.length = 6 ∧
    arcinfo.read linesC5 = (.ok ⟨(0, 0), 1, [[], [], []], [[], [], []]⟩, []) := by
  decide

/-- Claim C5 (amended): for every input whose header parses with
`ncols ≥ 1` and declares `nrows = ny`, if the stream ends before `ny` data
lines are available then `read` fails and returns no GridData. -/
theorem c5_truncated_amended :
    ∀ (ls : List Str) (nx ny : Int) (xo yo dx ms : ℚ),
      (arcinfo.readHeader ls).1 = .ok (nx, ny, xo, yo, dx, ms) →
      1 ≤ nx → (ls.length : Int) < 6 + ny →
      arcinfo.resOk (arcinfo.read ls).1 = false := by
  intro ls nx ny xo yo dx ms hh hnx hlen
  unfold arcinfo.read
  rcases hhp : arcinfo.readHeader ls with ⟨res, st1⟩
  have hres : res = .ok (nx, ny, xo, yo, dx, ms) := by
    rw [hhp] at hh
    exact hh
  subst hres
  dsimp only
  by_cases hneg : nx < 0 ∨ ny < 0
  · rw [if_pos hneg]; rfl
  · rw [if_neg hneg]
    push_neg at hneg
    have hst1 : st1 = ls.drop 6 := by
      have h2 := arcinfo.readHeader_ok_snd ls _ hh
      rw [hhp] at h2
      exact h2
    rcases hr : arcinfo.readRows nx.toNat ny.toNat st1 with ⟨res2, st2⟩
    have h6 : 6 ≤ ls.length := arcinfo.readHeader_ok_min_length ls _ hh
    have herr : arcinfo.resOk ((arcinfo.readRows nx.toNat ny.toNat st1).1) = false := by
      refine arcinfo.readRows_err_short nx.toNat (by omega) ny.toNat st1 ?_
      rw [hst1, List.length_drop]
      omega
    rw [hr] at herr
    cases res2 with
    | error e => rfl
    | ok rows => simp [arcinfo.resOk] at herr

/-- The truncated input of the spec: `nrows 3` declared, only two data
lines present (with `ncols 2`). -/
def linesTrunc : List Str :=
  ["ncols 2", "nrows 3", "xllcorner 0.0", "yllcorner 0.0", "cellsize 1.0",
   "NODATA_value -1.0", "5.0 6.0", "1.0 2.0"].map String.toList

/-- Witness for the amended C5: the spec's own truncated example
(≤ 2 of 3 rows) is rejected. -/
theorem c5_truncated_witness :
    arcinfo.resOk (arcinfo.read linesTrunc).1 = false := by
  exact c5_truncated_amended linesTrunc 2 3 0 0 1 (-1) (by decide) (by decide) (by decide)

/-- A 2-column input whose first data row has a single token. -/
def linesC6 : List Str :=
  ["ncols 2", "nrows 2", "xllcorner 0.0", "yllcorner 0.0", "cellsize 1.0",
   "NODATA_value -1.0", "7.0", "1.0 2.0"].map String.toList

/-- Counterexample to C6 as stated: a data row with 1 token where
`ncols = 2` does NOT fail — numpy broadcasts the single value across the
row, so `read` succeeds with that row equal to [7, 7]. -/
theorem c6_counterexample :
    (pySplit (linesC6.getD 6 [])).length = 1 ∧
    arcinfo.read linesC6 =
      (.ok ⟨(0, 0), 1, [[1, 2], [7, 7]], [[false, false], [false, false]]⟩, []) := by
  decide

/-- Claim C6 (amended): a data row whose token count differs from `ncols`
makes `read` fail with a parse error — except a row of exactly one token,
which numpy broadcasting accepts, replicating the single value across all
`ncols` columns of the corresponding storage row. -/
theorem c6_badrow_amended :
    (∀ (ls : List Str) (nx ny : Int) (xo yo dx ms : ℚ) (r : Nat),
      (arcinfo.readHeader ls).1 = .ok (nx, ny, xo, yo, dx, ms) →
      (r : Int) < ny →
      (pySplit (ls.getD (6 + r) [])).length ≠ nx.toNat →
      (pySplit (ls.getD (6 + r) [])).length ≠ 1 →
      arcinfo.resOk (arcinfo.read ls).1 = false) ∧
    ∀ (ls : List Str) (g : GridData) (rest : List Str) (r : Nat),
      arcinfo.read ls = (.ok g, rest) → r < g.shape.1 →
      (pySplit (ls.getD (6 + r) [])).length = 1 →
      g.data.getD (g.shape.1 - 1 - r) [] =
        List.replicate g.shape.2 ((g.data.getD (g.shape.1 - 1 - r) []).headD 0) := by
  constructor
  · intro ls nx ny xo yo dx ms r hh hr hne hne1
    unfold arcinfo.read
    rcases hhp : arcinfo.readHeader ls with ⟨res, st1⟩
    have hres : res = .ok (nx, ny, xo, yo, dx, ms) := by
      rw [hhp] at hh
      exact hh
    subst hres
    dsimp only
    by_cases hneg : nx < 0 ∨ ny < 0
    · rw [if_pos hneg]; rfl
    · rw [if_neg hneg]
      push_neg at hneg
      have hst1 : st1 = ls.drop 6 := by
        have h2 := arcinfo.readHeader_ok_snd ls _ hh
        rw [hhp] at h2
        exact h2
      rcases hrr : arcinfo.readRows nx.toNat ny.toNat st1 with ⟨res2, st2⟩
      have herr : arcinfo.resOk ((arcinfo.readRows nx.toNat ny.toNat st1).1) = false := by
        refine arcinfo.readRows_err_badrow nx.toNat ny.toNat st1 r (by omega) ?_ ?_
        · rw [hst1, arcinfo.getD_drop]
          exact hne
        · rw [hst1, arcinfo.getD_drop]
          exact hne1
      rw [hrr] at herr
      cases res2 with
      | error e => rfl
      | ok rows => simp [arcinfo.resOk] at herr
  · intro ls g rest r h hr h1
    obtain ⟨nx, ny, xo, yo, dx, ms, rows, hh, hnx, hny, hr2, hg⟩ :=
      arcinfo.read_ok_inv ls g rest h
    have hfst : (arcinfo.readHeader ls).1 = .ok (nx, ny, xo, yo, dx, ms) := by rw [hh]
    have hsnd : (arcinfo.readHeader ls).2 = ls.drop 6 :=
      arcinfo.readHeader_ok_snd ls _ hfst
    have hdata : g.data = rows := by rw [hg]; rfl
    have hlen : rows.length = ny.toNat :=
      arcinfo.readRows_ok_len _ _ _ _ (by rw [hr2])
    have hs1 : g.shape.1 = ny.toNat := by
      show g.data.length = _
      rw [hdata, hlen]
    have hrowlen : ∀ row ∈ rows, row.length = nx.toNat :=
      arcinfo.readRows_ok_mem_length _ _ _ _ (by rw [hr2])
    have hne : rows ≠ [] := by
      intro hnil
      rw [hnil] at hlen
      simp at hlen
      omega
    have hs2 : g.shape.2 = nx.toNat := by
      show (g.data.headD []).length = _
      rw [hdata]
      cases rows with
      | nil => exact absurd rfl hne
      | cons row0 rest2 =>
        exact hrowlen row0 (List.mem_cons_self row0 rest2)
    have hget := arcinfo.readRows_ok_getD nx.toNat ny.toNat ((arcinfo.readHeader ls).2)
      rows (by rw [hr2]) r (by omega)
    rw [hsnd, arcinfo.getD_drop] at hget
    have hb := arcinfo.rowRes_single_broadcast nx.toNat (ls.getD (6 + r) []) _ hget h1
    rw [hs1, hs2, hdata]
    exact hb

/-- A 2-column input whose first data row has three tokens. -/
def linesC6w : List Str :=
  ["ncols 2", "nrows 2", "xllcorner 0.0", "yllcorner 0.0", "cellsize 1.0",
   "NODATA_value -1.0", "5.0 6.0 7.0", "1.0 2.0"].map String.toList

/-- Witness for the amended C6: a 3-token row under `ncols 2` is
rejected. -/
theorem c6_badrow_witness :
    arcinfo.resOk (arcinfo.read linesC6w).1 = false := by
  exact c6_badrow_amended.1 linesC6w 2 2 0 0 1 (-1) 0 (by decide) (by decide)
    (by decide) (by decide)

/-- Claim C10: a successful `read` consumes exactly `6 + nrows` lines: the
remaining stream is the input minus that prefix, and any input agreeing
with the original on those `6 + nrows` lines — whatever follows them —
parses to the very same GridData. -/
theorem c10_read_consumes :
    ∀ (ls : List Str) (g : GridData) (rest : List Str),
      arcinfo.read ls = (.ok g, rest) →
      rest = ls.drop (6 + g.shape.1) ∧
      ∀ ls2 : List Str, ls2.take (6 + g.shape.1) = ls.take (6 + g.shape.1) →
        arcinfo.read ls2 = (.ok g, ls2.drop (6 + g.shape.1)) := by
  intro ls g rest h
  obtain ⟨nx, ny, xo, yo, dx, ms, rows, hh, hnx, hny, hr, hg⟩ :=
    arcinfo.read_ok_inv ls g rest h
  have hfst : (arcinfo.readHeader ls).1 = .ok (nx, ny, xo, yo, dx, ms) := by rw [hh]
  have hsnd : (arcinfo.readHeader ls).2 = ls.drop 6 :=
    arcinfo.readHeader_ok_snd ls _ hfst
  have hdata : g.data = rows := by rw [hg]; rfl
  have hlen : rows.length = ny.toNat :=
    arcinfo.readRows_ok_len _ _ _ _ (by rw [hr])
  have hs1 : g.shape.1 = ny.toNat := by
    show g.data.length = _
    rw [hdata, hlen]
  have hrest : rest = ls.drop (6 + g.shape.1) := by
    have h2 := arcinfo.readRows_ok_snd nx.toNat ny.toNat ((arcinfo.readHeader ls).2)
      rows (by rw [hr])
    rw [hr] at h2
    dsimp only at h2
    rw [hsnd, List.drop_drop] at h2
    rw [h2, hs1]
  refine ⟨hrest, ?_⟩
  intro ls2 htake
  have htake6 : ls2.take 6 = ls.take 6 := by
    have e1 : ls2.take 6 = (ls2.take (6 + g.shape.1)).take 6 := by
      rw [List.take_take]
      have : min 6 (6 + g.shape.1) = 6 := by omega
      rw [this]
    have e2 : ls.take 6 = (ls.take (6 + g.shape.1)).take 6 := by
      rw [List.take_take]
      have : min 6 (6 + g.shape.1) = 6 := by omega
      rw [this]
    rw [e1, e2, htake]
  have htok : ∀ i, i < 6 → arcinfo.hTok ls2 i = arcinfo.hTok ls i := by
    intro i hi
    unfold arcinfo.hTok
    rw [getD_eq_of_take_eq ls2 ls 6 i [] htake6 hi]
  have hfst2 : (arcinfo.readHeader ls2).1 = .ok (nx, ny, xo, yo, dx, ms) := by
    rw [arcinfo.readHeader_fst, htok 0 (by omega), htok 1 (by omega),
      htok 2 (by omega), htok 3 (by omega), htok 4 (by omega), htok 5 (by omega),
      ← arcinfo.readHeader_fst]
    exact hfst
  have hsnd2 : (arcinfo.readHeader ls2).2 = ls2.drop 6 :=
    arcinfo.readHeader_ok_snd ls2 _ hfst2
  have htakerows : (ls2.drop 6).take ny.toNat = (ls.drop 6).take ny.toNat := by
    have e1 : (ls2.drop 6).take ny.toNat = (ls2.take (6 + g.shape.1)).drop 6 := by
      rw [List.drop_take]
      have : 6 + g.shape.1 - 6 = ny.toNat := by omega
      rw [this]
    have e2 : (ls.drop 6).take ny.toNat = (ls.take (6 + g.shape.1)).drop 6 := by
      rw [List.drop_take]
      have : 6 + g.shape.1 - 6 = ny.toNat := by omega
      rw [this]
    rw [e1, e2, htake]
  have hrowfst : (arcinfo.readRows nx.toNat ny.toNat (ls2.drop 6)).1 = .ok rows := by
    rw [arcinfo.readRows_fst_take nx.toNat ny.toNat (ls2.drop 6) (ls.drop 6) htakerows]
    rw [hsnd] at hr
    rw [hr]
  have hrowsnd : (arcinfo.readRows nx.toNat ny.toNat (ls2.drop 6)).2 =
      ls2.drop (6 + g.shape.1) := by
    have h2 := arcinfo.readRows_ok_snd nx.toNat ny.toNat (ls2.drop 6) rows hrowfst
    rw [h2, List.drop_drop, hs1]
  have hpair2 : arcinfo.readHeader ls2 = (.ok (nx, ny, xo, yo, dx, ms), ls2.drop 6) := by
    rw [← hfst2, ← hsnd2]
  have hrows2 : arcinfo.readRows nx.toNat ny.toNat (ls2.drop 6) =
      (.ok rows, ls2.drop (6 + g.shape.1)) := by
    rw [← hrowfst, ← hrowsnd]
  rw [arcinfo.read_of_ok ls2 nx ny xo yo dx ms (ls2.drop 6) rows
    (ls2.drop (6 + g.shape.1)) hpair2 hnx hny hrows2, hg]

/-- Witness for C10: appending a junk line to the concrete C2 input
leaves the parsed grid unchanged; the junk line is simply never read. -/
theorem c10_read_consumes_witness :
    arcinfo.read (linesC2 ++ ["junk data".toList]) =
      (.ok ⟨(0, 0), 10, [[1, 2], [5, 6]], [[false, false], [false, false]]⟩,
       ["junk data".toList]) := by
  have h := (c10_read_consumes linesC2
    ⟨(0, 0), 10, [[1, 2], [5, 6]], [[false, false], [false, false]]⟩ []
    (by decide)).2 (linesC2 ++ ["junk data".toList]) (by decide)
  simpa using h

/-- A 1×1 grid whose single cell is live (unmasked) and stores -1 — the
very value later used as the write sentinel. -/
def gColl : GridData := GridData.make (0, 0) 1 [[-1]] (-9999)

/-- Counterexample to C1 as stated: writing the live value -1 with
missing sentinel -1 and reading back masks the cell, although it was not
masked in the original — the "and vice versa" direction of the mask
round trip fails when an unmasked cell numerically equals the sentinel. -/
theorem c1_counterexample :
    gColl.isMasked 0 0 = false ∧
    arcinfo.read (arcinfo.write gColl (-1)) =
      (.ok ⟨(0, 0), 1, [[-1]], [[true]]⟩, []) := by
  decide

/-- Claim C1 (amended): for every well-formed GridData `g` and sentinel
`m` whose origin, cell size, sentinel and written cell values all render
as clean round-tripping tokens (the representable floats of the claim),
and such that no unmasked cell of `g` equals `m`, reading back
`write(g, m)` succeeds and returns a grid with the same origin, the same
cell size, exactly the same mask, and per cell the value `write` emitted
(`cellOut`): the stored value at unmasked cells, the sentinel at masked
ones.  In particular every unmasked value survives unchanged (second
conjunct). -/
theorem c1_round_trip_amended (g : GridData) (m : ℚ) (hwf : g.Wf)
    (hxo : arcinfo.fmtOk g.origin.1) (hyo : arcinfo.fmtOk g.origin.2)
    (hdx : arcinfo.fmtOk g.delta) (hm : arcinfo.fmtOk m)
    (hcellfmt : ∀ i, i < g.shape.1 → ∀ j, j < g.shape.2 →
      arcinfo.fmtOk (arcinfo.cellOut g m i j))
    (hnocol : ∀ i, i < g.shape.1 → ∀ j, j < g.shape.2 →
      g.isMasked i j = false → g.val i j ≠ m) :
    arcinfo.read (arcinfo.write g m) =
      (.ok ⟨g.origin, g.delta,
        (List.range g.shape.1).map
          (fun i => (List.range g.shape.2).map (arcinfo.cellOut g m i)),
        g.mask⟩, []) ∧
    ∀ i, i < g.shape.1 → ∀ j, j < g.shape.2 → g.isMasked i j = false →
      arcinfo.cellOut g m i j = g.val i j := by
  have hrw := arcinfo.read_write g m hxo hyo hdx hm (fun i j hi hj => hcellfmt i hi j hj)
  constructor
  · rw [hrw]
    have hmask : ((List.range g.shape.1).map
        (fun i => (List.range g.shape.2).map (arcinfo.cellOut g m i))).map
          (fun r => r.map (fun v => decide (v = m))) = g.mask := by
      rw [List.map_map]
      have hfun : ((fun r => List.map (fun v => decide (v = m)) r) ∘
          fun i => (List.range g.shape.2).map (arcinfo.cellOut g m i)) =
          fun i => (List.range g.shape.2).map
            (fun j => decide (arcinfo.cellOut g m i j = m)) := by
        funext i
        simp [List.map_map, Function.comp]
      rw [hfun]
      symm
      refine eq_range_map g.mask g.shape.1 [] _ hwf.1 ?_
      intro i hi
      refine eq_range_map (g.mask.getD i []) g.shape.2 false _ ?_ ?_
      · have hmem : g.mask.getD i [] ∈ g.mask := by
          rw [List.getD_eq_getElem g.mask [] (by rw [hwf.1]; exact hi)]
          exact List.getElem_mem _
        exact hwf.2.2 _ hmem
      · intro j hj
        show g.isMasked i j = decide (arcinfo.cellOut g m i j = m)
        by_cases hmsk : g.isMasked i j
        · rw [hmsk]
          have : arcinfo.cellOut g m i j = m := by
            unfold arcinfo.cellOut
            rw [if_pos hmsk]
          simp [this]
        · have hmf : g.isMasked i j = false := by simpa using hmsk
          have hval : arcinfo.cellOut g m i j = g.val i j := by
            unfold arcinfo.cellOut
            rw [if_neg hmsk]
          rw [hmf, hval]
          have := hnocol i hi j hj hmf
          simp [this]
    unfold GridData.make
    rw [hmask]
  · intro i hi j hj hmsk
    unfold arcinfo.cellOut
    rw [hmsk]
    simp

/-- Witness for the amended C1: the 2×2 example grid with a masked cell
round-trips through write-with-sentinel -9999 and read, reproducing the
origin, cell size, mask, and cell values. -/
theorem c1_round_trip_witness :
    arcinfo.read (arcinfo.write gEx (-9999)) =
      (.ok ⟨gEx.origin, gEx.delta,
        (List.range gEx.shape.1).map
          (fun i => (List.range gEx.shape.2).map (arcinfo.cellOut gEx (-9999) i)),
        gEx.mask⟩, []) := by
  exact (c1_round_trip_amended gEx (-9999) (by decide) (by decide) (by decide)
    (by decide) (by decide) (by decide) (by decide)).1
